import Mathlib

set_option maxRecDepth 100000

/-!
# aprs.go: a shallow embedding of `ParseAPRSPacket`

Go strings are byte sequences; a string is modelled as the list of its bytes, each byte a
natural number below 256.  Go `int` positions are modelled as `Int` (the sentinel `-1` of
`strings.Index` takes part in the source's offset arithmetic).  A run-time panic of the Go
program (slice bounds or index out of range) is the outcome `fault`.
-/

namespace Aprs

/-- A Go string: the list of its bytes. -/
abbrev Str := List Nat

/-- The bytes of an ASCII literal. -/
def bs (s : String) : Str := s.toList.map Char.toNat

/-- Go `len(s)` as an `int`. -/
def len {α : Type} (s : List α) : Int := (s.length : Int)

/-- Go `strings.Index(s, sub)`: position of the first occurrence of `sub` in `s`, or `-1`. -/
def Index : Str → Str → Int
  | [], sub => if sub.isPrefixOf [] then 0 else -1
  | c :: cs, sub =>
    if sub.isPrefixOf (c :: cs) then 0
    else
      let r := Index cs sub
      if r = -1 then -1 else r + 1

/-- Go `strings.Contains(s, sub)`, which is `Index(s, sub) >= 0`. -/
def Contains (s sub : Str) : Bool := decide (0 ≤ Index s sub)

/-- Go `strings.Split(s, sep)` for a one-byte separator `sep`: the pieces of `s` between the
occurrences of `sep` (one more piece than there are occurrences). -/
def Split : Str → Nat → List Str
  | [], _ => [[]]
  | c :: cs, sep =>
    if c = sep then [] :: Split cs sep
    else
      match Split cs sep with
      | [] => [[c]]
      | h :: t => (c :: h) :: t

/-- Go slice expression `s[lo:hi]`: panics (here `none`) unless `0 ≤ lo ≤ hi ≤ len(s)`. -/
def slice (s : Str) (lo hi : Int) : Option Str :=
  if 0 ≤ lo ∧ lo ≤ hi ∧ hi ≤ len s then some ((s.drop lo.toNat).take (hi.toNat - lo.toNat))
  else none

/-- Go `unicode.ToLower` on the runes up to U+00FF. -/
def toLowerRune (r : Nat) : Nat :=
  if (65 ≤ r ∧ r ≤ 90) ∨ (192 ≤ r ∧ r ≤ 222 ∧ r ≠ 215) then r + 32 else r

/-- Go `string(b)` for a byte `b`: the UTF-8 encoding of the rune with code `b`. -/
def runeString (r : Nat) : Str :=
  if r < 128 then [r] else [192 + r / 64, 128 + r % 64]

/-- Go `strings.ToLower(string(b))` for a byte `b`. -/
def ToLowerByte (b : Nat) : Str := runeString (toLowerRune b)

/-- Go `strings.ToUpper(s)` for a one-byte string `s`: an ASCII byte is upper-cased, a byte
from 0x80 on is not valid UTF-8 and comes out as U+FFFD. -/
def ToUpper1 (s : Str) : Str :=
  match s with
  | [c] => if c < 128 then (if 97 ≤ c ∧ c ≤ 122 then [c - 32] else [c]) else [239, 191, 189]
  | other => other

/-- Source `LocationSlice(line, LocationPtr, ptr)`. -/
def LocationSlice (line : Str) (LocationPtr ptr : Int) : Option Str :=
  (slice line (LocationPtr + ptr) ((LocationPtr + ptr) + 1)).map ToUpper1

/-- Source `APRSPacket`. -/
structure APRSPacket where
  Callsign : Str := []
  PacketType : Str := []
  Latitude : Str := []
  Longitude : Str := []
  Altitude : Str := []
  GPSTime : Str := []
  RawData : Str := []
  Symbol : Str := []
  Heading : Str := []
  PHG : Str := []
  Speed : Str := []
  Destination : Str := []
  Status : Str := []
  WindDirection : Str := []
  WindSpeed : Str := []
  WindGust : Str := []
  WeatherTemp : Str := []
  RainHour : Str := []
  RainDay : Str := []
  RainMidnight : Str := []
  Humidity : Str := []
  Pressure : Str := []
  Luminosity : Str := []
  Snowfall : Str := []
  Raincounter : Str := []
  deriving DecidableEq

/-- What a call of `ParseAPRSPacket` ends in: a panic, or the returned pair `(p, e)` with
`e = none` for a nil error and `some msg` for the error made by `fmt.Errorf(msg)`. -/
inductive Outcome where
  | fault : Outcome
  | ret (p : APRSPacket) (e : Option String) : Outcome
  deriving DecidableEq

/-- Control flow inside the function body: a panic, an executed `return p, e`, or falling
through to the next statement with a value. -/
inductive Res (α : Type) where
  | fault : Res α
  | ret (p : APRSPacket) (e : Option String) : Res α
  | ok (a : α) : Res α

/-- Sequencing of statements. -/
def Res.bind {α β : Type} (r : Res α) (k : α → Res β) : Res β :=
  match r with
  | .fault => .fault
  | .ret p e => .ret p e
  | .ok a => k a

instance : Monad Res where
  pure := Res.ok
  bind := Res.bind

/-- A partial operation (slice, index) used as a statement: `none` is the panic. -/
def orFault {α : Type} : Option α → Res α
  | none => .fault
  | some a => .ok a

/-- The floating-point operations of the Go standard library that the source calls.
`ParseFloat s` is `strconv.ParseFloat(s, 64)` (`none` when its error is not nil), `div60 x`
is `x / 60`, `Sprintf_f x` is `fmt.Sprintf("%f", x)`, which always prints at least three
bytes (`NaN`, the shortest). -/
structure FloatLib where
  F : Type
  ParseFloat : Str → Option F
  div60 : F → F
  Sprintf_f : F → Str
  Sprintf_f_len : ∀ x, 3 ≤ (Sprintf_f x).length

/-- Source pattern `x, e := strconv.ParseFloat(s, 64); if e != nil { return p, msg }`. -/
def parseFloatOr (lib : FloatLib) (s : Str) (p : APRSPacket) (msg : String) : Res lib.F :=
  match lib.ParseFloat s with
  | none => .ret p (some msg)
  | some f => .ok f

/-- Source pattern `if cond { s = "-" + s }`. -/
def negateIf (cond : Prop) [Decidable cond] (s : Str) : Str :=
  if cond then bs "-" ++ s else s

/-- The end of the function body: `return p, e` with the outer `e`, which is still nil. -/
def Res.finish : Res APRSPacket → Outcome
  | .fault => .fault
  | .ret p e => .ret p e
  | .ok p => .ret p none

def errBlank : String := "Could not parse the packet because the packet line is blank"
def errUnsupported : String := "This libary does not support this kind of packet."
def errRoute : String :=
  "There was not one > in the route part of the packet, dunno how to decode this"
def errGPGGAFields : String := "There was not enough data inside the GPGGA packet to decode it"
def errGPGGALat : String := "Could not decode the DegLatMin part of the GPGGA packet"
def errGPGGALon : String := "Could not decode the DegLonMin part of the GPGGA packet"
def errGPGGAAlt : String := "Could not decode the Altitude part of the GPGGA packet"
def errMicE : String := "Mic-E is currently not supported"
def errLatMin : String := "Could not make DegLatMin a float"
def errLonMin : String := "Could not make DegLonMin a float"

/-- Source lines 67-79: the Status Report test and extractor. -/
def statusStage (input : Str) (p : APRSPacket) : Res APRSPacket :=
  let LocationOfStatusMarker := Index input (bs ":>")
  let LocationOfNormalMarker := Index input (bs ">")
  if LocationOfStatusMarker > LocationOfNormalMarker then do
    let p := { p with PacketType := bs "Status Report" }
    let RawArray ← orFault (slice input (LocationOfStatusMarker + 2)
      ((LocationOfStatusMarker + 2) + (len input - LocationOfStatusMarker - 2)))
    if RawArray.length > 6 ∧ (RawArray.get? 6).map ToLowerByte = some (bs "z") then do
      let t ← orFault (slice input (LocationOfStatusMarker + 2) (LocationOfStatusMarker + 8))
      let p := { p with GPSTime := t }
      let s ← orFault (slice input (LocationOfStatusMarker + 2)
        ((LocationOfStatusMarker + 2) + len input - LocationOfStatusMarker - 9))
      pure { p with Status := s }
    else do
      let s ← orFault (slice input (LocationOfStatusMarker + 2)
        ((LocationOfStatusMarker + 2) + len input - LocationOfStatusMarker - 2))
      pure { p with Status := s }
  else pure p

/-- Source lines 82-129: the GPGGA test and extractor. -/
def gpggaStage (lib : FloatLib) (input : Str) (p : APRSPacket) : Res APRSPacket :=
  if Contains input (bs ":$GPGGA,") then do
    let p := { p with PacketType := bs "GPGGA" }
    let GPGGALocation := Index input (bs ":$GPGGA,")
    let RawData ← orFault (slice input GPGGALocation
      (GPGGALocation + (len input - GPGGALocation)))
    let SplitData := Split RawData 44
    if SplitData.length < 9 then Res.ret p (some errGPGGAFields) else do
    let f1 ← orFault (SplitData.get? 1)
    let p := { p with GPSTime := f1 }
    -- Lat
    let DegLatitude ← orFault (SplitData.get? 2)
    let latMin ← orFault (slice DegLatitude 2 (2 + len DegLatitude - 2))
    let DegLatMin ← parseFloatOr lib latMin p errGPGGALat
    let DegLatMin := lib.div60 DegLatMin
    let StrDegLatMin := lib.Sprintf_f DegLatMin
    let latDeg ← orFault (slice DegLatitude 0 2)
    let latFrac ← orFault (slice StrDegLatMin 1 (len StrDegLatMin - 1))
    let p := { p with Latitude := latDeg ++ latFrac }
    let f3 ← orFault (SplitData.get? 3)
    let p := { p with Latitude := negateIf (f3 = bs "S") p.Latitude }
    -- Long
    let DegLongitude ← orFault (SplitData.get? 4)
    let lonMin ← orFault (slice DegLongitude 3 (3 + len DegLongitude - 3))
    let DegLonMin ← parseFloatOr lib lonMin p errGPGGALon
    let DegLonMin := lib.div60 DegLonMin
    let StrDegLonMin := lib.Sprintf_f DegLonMin
    let lonDeg ← orFault (slice DegLongitude 0 3)
    let lonFrac ← orFault (slice StrDegLonMin 1 (len StrDegLonMin - 1))
    let p := { p with Longitude := lonDeg ++ lonFrac }
    let f3 ← orFault (SplitData.get? 3)
    let p := { p with Longitude := negateIf (f3 = bs "W") p.Longitude }
    let f9 ← orFault (SplitData.get? 9)
    let f ← parseFloatOr lib f9 p errGPGGAAlt
    pure { p with Altitude := lib.Sprintf_f f }
  else pure p

/-- Source lines 132-143: the Mic-E test. -/
def micEStage (input : Str) (p : APRSPacket) : Res APRSPacket :=
  if Index input (bs ":`") ≠ -1 ∨ Index input (bs ":'") ≠ -1 then
    let t := if Index input (bs ":`") ≠ -1 then bs "New Mic-E" else bs "Old Mic-E"
    Res.ret { p with PacketType := t } (some errMicE)
  else pure p

/-- One weather tag of source lines 210-239, as the new value of its field: when `tag` occurs
in `WeatherStr`, the slice `input[Index(WeatherStr, tag)+27+1 : (Index(WeatherStr, tag)+27)+4]`,
else the field keeps its value `old`. -/
def weatherField (input WeatherStr tag old : Str) : Option Str :=
  if Index WeatherStr tag ≠ -1 then
    slice input (Index WeatherStr tag + 27 + 1) ((Index WeatherStr tag + 27) + 4)
  else some old

/-- Source lines 203-239: the weather report test and the weather fields. -/
def weatherStage (input : Str) (LocationPtr : Int) (p : APRSPacket) : Res APRSPacket := do
  let c27 ← orFault (slice input (LocationPtr + 27) (LocationPtr + 28))
  -- the right operand of && is evaluated only when the left one holds
  let isWeather ← orFault (if c27 = bs "_" then
      (slice input (LocationPtr + 31) (LocationPtr + 32)).map (fun c31 => decide (c31 = bs "/"))
    else some false)
  if isWeather then do
    let p := { p with PacketType := bs "Weather Report" }
    let wd ← orFault (slice input (LocationPtr + 28) (LocationPtr + 31))
    let p := { p with WindDirection := wd }
    let ws ← orFault (slice input (LocationPtr + 32) (LocationPtr + 35))
    let p := { p with WindSpeed := ws }
    let WeatherStr ← orFault (slice input (LocationPtr + 27) (len input))
    let g ← orFault (weatherField input WeatherStr (bs "g") p.WindGust)
    let p := { p with WindGust := g }
    let t ← orFault (weatherField input WeatherStr (bs "t") p.WeatherTemp)
    let p := { p with WeatherTemp := t }
    let r ← orFault (weatherField input WeatherStr (bs "r") p.RainHour)
    let p := { p with RainHour := r }
    let d ← orFault (weatherField input WeatherStr (bs "p") p.RainDay)
    let p := { p with RainDay := d }
    let m ← orFault (weatherField input WeatherStr (bs "P") p.RainMidnight)
    let p := { p with RainMidnight := m }
    let h ← orFault (weatherField input WeatherStr (bs "h") p.Humidity)
    let p := { p with Humidity := h }
    let b ← orFault (weatherField input WeatherStr (bs "b") p.Pressure)
    let p := { p with Pressure := b }
    let l ← orFault (weatherField input WeatherStr (bs "L") p.Luminosity)
    let p := { p with Luminosity := l }
    let s ← orFault (weatherField input WeatherStr (bs "s") p.Snowfall)
    let p := { p with Snowfall := s }
    let c ← orFault (weatherField input WeatherStr (bs "#") p.Raincounter)
    let p := { p with Raincounter := c }
    pure p
  else pure p

/-- The value of `LocationPtr` after source lines 146-155: `0`, overwritten by the position of
`:@` when there is one, then by the position of `:=` when there is one. -/
def locationPtr (input : Str) : Int :=
  let LocationPtr : Int := 0
  let LocationPtr := if Index input (bs ":@") ≠ -1 then Index input (bs ":@") else LocationPtr
  if Index input (bs ":=") ≠ -1 then Index input (bs ":=") else LocationPtr

/-- Source lines 146-246: the Location test and extractor. -/
def locationStage (lib : FloatLib) (input : Str) (p : APRSPacket) : Res APRSPacket := do
  let LocationPtr := locationPtr input
  let TimestampPtr := Index input (bs ":!")
  let LocationPtrStr ← orFault (LocationSlice input LocationPtr 8)
  let TimestampPtrStr ← orFault (LocationSlice input TimestampPtr 9)
  if (LocationPtr ≠ -1 ∧
        (LocationPtrStr = bs "H" ∨ LocationPtrStr = bs "Z" ∨ LocationPtrStr = bs "/")) ∨
      (TimestampPtr ≠ -1 ∧ (TimestampPtrStr = bs "S" ∨ TimestampPtrStr = bs "N")) then do
    let p := { p with PacketType := bs "Location" }
    -- the else branch, TimestampPtr = TimestampPtr - 7, writes a local that is not read again
    let t ← orFault (if LocationPtr ≠ -1 ∧
        (LocationPtrStr = bs "H" ∨ LocationPtrStr = bs "Z" ∨ LocationPtrStr = bs "/") then
        slice input (TimestampPtr + 2) (TimestampPtr + 8)
      else some p.GPSTime)
    let p := { p with GPSTime := t }
    let s1 ← orFault (slice input (LocationPtr + 17) (LocationPtr + 18))
    let s2 ← orFault (slice input (LocationPtr + 27) (LocationPtr + 28))
    let p := { p with Symbol := s1 ++ s2 }
    -- Lat
    let latMin ← orFault (slice input (LocationPtr + 11) (LocationPtr + 16))
    let DegLatMin ← parseFloatOr lib latMin p errLatMin
    let DegLatMin := lib.div60 DegLatMin
    let DegLatMinStr := lib.Sprintf_f DegLatMin
    let latDeg ← orFault (slice input (LocationPtr + 9) (LocationPtr + 11))
    let latFrac ← orFault (slice DegLatMinStr 1 (len DegLatMinStr - 1))
    let p := { p with Latitude := latDeg ++ latFrac }
    let hemi ← orFault (slice input (LocationPtr + 16) (LocationPtr + 17))
    let p := { p with Latitude := negateIf (hemi = bs "S") p.Latitude }
    -- Long
    let lonMin ← orFault (slice input (LocationPtr + 21) (LocationPtr + 26))
    let DegLonMin ← parseFloatOr lib lonMin p errLonMin
    let DegLonMin := lib.div60 DegLonMin
    let DegLonMinStr := lib.Sprintf_f DegLonMin
    let lonDeg ← orFault (slice input (LocationPtr + 19) (LocationPtr + 21))
    let lonFrac ← orFault (slice DegLonMinStr 1 (len DegLonMinStr - 1))
    let p := { p with Longitude := lonDeg ++ lonFrac }
    let hemi ← orFault (slice input (LocationPtr + 16) (LocationPtr + 17))
    let p := { p with Longitude := negateIf (hemi = bs "S") p.Longitude }
    weatherStage input LocationPtr p
  else pure p

/-- Source lines 67-248: the four stages that follow the route split, in sequence. -/
def stages (lib : FloatLib) (input : Str) (p : APRSPacket) : Res APRSPacket :=
  statusStage input p >>= gpggaStage lib input >>= micEStage input >>= locationStage lib input

/-- Source `ParseAPRSPacket(input)`. -/
def ParseAPRSPacket (lib : FloatLib) (input : Str) : Outcome :=
  if input = [] then .ret {} (some errBlank)
  else if ¬ Contains input (bs ">") then .ret {} (some errUnsupported)
  else
    let CommaParts := Split input 44
    match CommaParts.get? 0 with
    | none => .fault
    | some RouteString =>
      let RouteParts := Split RouteString 62
      if RouteParts.length ≠ 2 then .ret {} (some errRoute)
      else
        match RouteParts.get? 0, RouteParts.get? 1 with
        | some r0, some r1 =>
          let p : APRSPacket := { Callsign := r0, Destination := r1 }
          (stages lib input p).finish
        | _, _ => .fault

/-! ## The Go standard library's float64 operations

A model of `strconv.ParseFloat(s, 64)`, float64 division by 60 and `fmt.Sprintf("%f", x)` by
exact integer arithmetic: a finite float64 is a sign, a mantissa and a binary exponent, both
conversions and the division round to nearest, ties to even, as IEEE 754 and Go do. -/

/-- A float64 value; `fin neg m e` is `(-1)^neg * m * 2^e`. -/
inductive F64 where
  | nan : F64
  | inf (neg : Bool) : F64
  | fin (neg : Bool) (m : Nat) (e : Int) : F64
  deriving DecidableEq, Repr

/-- The number of binary digits of `n`, computed with fuel. -/
def bitLenAux : Nat → Nat → Nat
  | 0, _ => 0
  | fuel + 1, n => if n = 0 then 0 else bitLenAux fuel (n / 2) + 1

/-- The number of binary digits of `n`. -/
def bitLen (n : Nat) : Nat := bitLenAux n n

/-- The quotient `num / den` rounded to the nearest integer, ties to even. -/
def roundHalfEven (num den : Nat) : Nat :=
  let q := num / den
  let r := num % den
  if den < 2 * r ∨ (2 * r = den ∧ q % 2 = 1) then q + 1 else q

/-- The float64 nearest to `n / d` (for `0 < n`, `0 < d`) as mantissa and exponent: the
exponent that puts the quotient in `[2^52, 2^53)`, not below the subnormal exponent `-1074`.
The result may exceed the float64 range; see `overflows`. -/
def roundRatio (n d : Nat) : Nat × Int :=
  let e0 : Int := (bitLen n : Int) - (bitLen d : Int) - 52
  let q0 := (n <<< (-e0).toNat) / (d <<< e0.toNat)
  let e1 := if q0 < 1 <<< 52 then e0 - 1 else e0
  let e := max e1 (-1074)
  (roundHalfEven (n <<< (-e).toNat) (d <<< e.toNat), e)

/-- Whether `m * 2^e`, as produced by `roundRatio`, is beyond the largest float64. -/
def overflows (m : Nat) (e : Int) : Bool :=
  decide (971 < e) || (decide (e = 971) && decide (1 <<< 53 ≤ m))

/-- Go `x / 60` on float64. -/
def F64.div60 : F64 → F64
  | .nan => .nan
  | .inf neg => .inf neg
  | .fin neg m e =>
    if m = 0 then .fin neg 0 0
    else
      let r := roundRatio (m <<< e.toNat) (60 <<< (-e).toNat)
      .fin neg r.1 r.2

/-- The decimal digits of `n`, computed with fuel, in front of `acc`. -/
def natDigitsAux : Nat → Nat → Str → Str
  | 0, _, acc => acc
  | fuel + 1, n, acc =>
    if n < 10 then (48 + n) :: acc else natDigitsAux fuel (n / 10) ((48 + n % 10) :: acc)

/-- The decimal digits of `n`. -/
def natDigits (n : Nat) : Str := natDigitsAux (n + 1) n []

/-- Go `fmt.Sprintf("%f", x)`: the exact value rounded to six decimals, ties to even. -/
def F64.Sprintf_f : F64 → Str
  | .nan => bs "NaN"
  | .inf false => bs "+Inf"
  | .inf true => bs "-Inf"
  | .fin neg m e =>
    let N := roundHalfEven ((m * 1000000) <<< e.toNat) (1 <<< (-e).toNat)
    let frac := N % 1000000
    (if neg then bs "-" else []) ++ natDigits (N / 1000000) ++
      [46, 48 + frac / 100000 % 10, 48 + frac / 10000 % 10, 48 + frac / 1000 % 10,
        48 + frac / 100 % 10, 48 + frac / 10 % 10, 48 + frac % 10]

/-- Go `lower(c)` of strconv: `c | ('x' - 'X')`. -/
def lower (c : Nat) : Nat := c ||| 32

/-- Go `commonPrefixLenIgnoreCase(s, prefix)` of strconv, `prefix` in lower case. -/
def commonPrefixLenIgnoreCase : Str → Str → Nat
  | c :: cs, x :: xs =>
    if (if 65 ≤ c ∧ c ≤ 90 then c + 32 else c) = x then commonPrefixLenIgnoreCase cs xs + 1
    else 0
  | _, _ => 0

/-- Go `special(s)` of strconv: infinities and NaN, with the number of bytes consumed. -/
def special (s : Str) : Option (F64 × Nat) :=
  let infinity (neg : Bool) (nsign : Nat) (t : Str) : Option (F64 × Nat) :=
    let n := commonPrefixLenIgnoreCase t (bs "infinity")
    let n := if 3 < n ∧ n < 8 then 3 else n
    if n = 3 ∨ n = 8 then some (.inf neg, nsign + n) else none
  match s with
  | [] => none
  | c :: cs =>
    if c = 43 then infinity false 1 cs
    else if c = 45 then infinity true 1 cs
    else if c = 105 ∨ c = 73 then infinity false 0 (c :: cs)
    else if c = 110 ∨ c = 78 then
      if commonPrefixLenIgnoreCase (c :: cs) (bs "nan") = 3 then some (.nan, 3) else none
    else none

/-- The state of the digit loop of Go `readFloat`; the mantissa is kept in full (Go keeps 19
digits and a truncation flag, and then converts the exact decimal). -/
structure Scan where
  mant : Nat := 0
  nd : Nat := 0
  dp : Int := 0
  sawdot : Bool := false
  sawdigits : Bool := false
  underscores : Bool := false

/-- The digit loop of Go `readFloat` in base 10 or 16; returns the state and the unread rest. -/
def scanDigits (base : Nat) : Str → Scan → Scan × Str
  | [], st => (st, [])
  | c :: cs, st =>
    if c = 95 then scanDigits base cs { st with underscores := true }
    else if c = 46 then
      if st.sawdot then (st, c :: cs)
      else scanDigits base cs { st with sawdot := true, dp := st.nd }
    else if 48 ≤ c ∧ c ≤ 57 then
      if c = 48 ∧ st.nd = 0 then
        scanDigits base cs { st with sawdigits := true, dp := st.dp - 1 }
      else
        scanDigits base cs
          { st with sawdigits := true, nd := st.nd + 1, mant := st.mant * base + (c - 48) }
    else if base = 16 ∧ 97 ≤ lower c ∧ lower c ≤ 102 then
      scanDigits base cs
        { st with sawdigits := true, nd := st.nd + 1, mant := st.mant * 16 + (lower c - 97 + 10) }
    else (st, c :: cs)

/-- The exponent digit loop of Go `readFloat`: the value saturates once it reaches 10000;
returns the value, whether an underscore was seen, and the unread rest. -/
def scanExp : Str → Nat → Bool → Nat × Bool × Str
  | [], e, u => (e, u, [])
  | c :: cs, e, u =>
    if c = 95 then scanExp cs e true
    else if 48 ≤ c ∧ c ≤ 57 then scanExp cs (if e < 10000 then e * 10 + (c - 48) else e) u
    else (e, u, c :: cs)

/-- Go `underscoreOK(s)` after the optional sign and base prefix: `saw` is the class of the
last byte seen (0 for a digit or the base prefix, 1 for an underscore, 2 for anything else,
3 at the beginning). -/
def underscoreLoop (hex : Bool) : Str → Nat → Bool
  | [], saw => saw ≠ 1
  | c :: cs, saw =>
    if (48 ≤ c ∧ c ≤ 57) ∨ (hex = true ∧ 97 ≤ lower c ∧ lower c ≤ 102) then
      underscoreLoop hex cs 0
    else if c = 95 then
      if saw ≠ 0 then false else underscoreLoop hex cs 1
    else if saw = 1 then false
    else underscoreLoop hex cs 2

/-- Go `underscoreOK(s)` of strconv. -/
def underscoreOK (s : Str) : Bool :=
  let s := match s with
    | c :: cs => if c = 45 ∨ c = 43 then cs else c :: cs
    | [] => []
  match s with
  | 48 :: x :: rest =>
    if lower x = 98 ∨ lower x = 111 ∨ lower x = 120 then
      underscoreLoop (decide (lower x = 120)) rest 0
    else underscoreLoop false s 3
  | _ => underscoreLoop false s 3

/-- Go `readFloat(s)` of strconv, for a whole string: sign, whether hexadecimal, mantissa and
the exponent of the base (10, or 2 when hexadecimal); `none` for a syntax error or when not
all of `s` is consumed. -/
def readFloat (s : Str) : Option (Bool × Bool × Nat × Int) :=
  match s with
  | [] => none
  | c :: cs =>
    let neg := decide (c = 45)
    let t := if c = 43 ∨ c = 45 then cs else c :: cs
    let hex := match t with
      | 48 :: x :: _ :: _ => decide (lower x = 120)
      | _ => false
    let base := if hex then 16 else 10
    let expChar := if hex then 112 else 101
    let (st, rest) := scanDigits base (if hex then t.drop 2 else t) {}
    if ¬ st.sawdigits then none
    else
      let dp : Int := if st.sawdot then st.dp else st.nd
      let dp := if hex then dp * 4 else dp
      let ndMant : Int := if hex then st.nd * 4 else st.nd
      -- the exponent part
      let tail : Option (Int × Bool × Str) :=
        match rest with
        | x :: r =>
          if lower x = expChar then
            match r with
            | [] => none
            | y :: r2 =>
              let esign : Int := if y = 45 then -1 else 1
              let r3 := if y = 43 ∨ y = 45 then r2 else y :: r2
              match r3 with
              | [] => none
              | z :: _ =>
                if z < 48 ∨ z > 57 then none
                else
                  let (e, u, r4) := scanExp r3 0 st.underscores
                  some (dp + e * esign, u, r4)
          else if hex then none
          else some (dp, st.underscores, rest)
        | [] => if hex then none else some (dp, st.underscores, rest)
      match tail with
      | none => none
      | some (dp, underscores, r) =>
        if r ≠ [] then none
        else if underscores ∧ ¬ underscoreOK s then none
        else some (neg, hex, st.mant, dp - ndMant)

/-- Go `strconv.ParseFloat(s, 64)`, with the syntax of Go 1.13 and later (hexadecimal forms,
underscores between digits): `none` when the error is not nil (syntax or range). -/
def ParseFloat (s : Str) : Option F64 :=
  match special s with
  | some (v, n) => if n = s.length then some v else none
  | none =>
    match readFloat s with
    | none => none
    | some (neg, hex, mant, exp) =>
      if mant = 0 then some (.fin neg 0 0)
      else
        let b : Nat := if hex then 2 else 10
        let r := roundRatio (mant * b ^ exp.toNat) (b ^ (-exp).toNat)
        if overflows r.1 r.2 then none else some (.fin neg r.1 r.2)

/-- The Go standard library. -/
def goFloat : FloatLib where
  F := F64
  ParseFloat := ParseFloat
  div60 := F64.div60
  Sprintf_f := F64.Sprintf_f
  Sprintf_f_len := by
    intro x
    cases x with
    | nan => decide
    | inf neg => cases neg <;> decide
    | fin neg m e => simp [F64.Sprintf_f]; omega

/-! ## Notions used to state the properties -/

/-- The text of `s` before the first `c` (all of `s` when there is none). -/
def before (c : Nat) : Str → Str
  | [] => []
  | x :: xs => if x = c then [] else x :: before c xs

/-- The text of `s` after the first `c` (empty when there is none). -/
def after (c : Nat) : Str → Str
  | [] => []
  | x :: xs => if x = c then xs else after c xs

/-- The header of a line: the text before the first comma. -/
def header (line : Str) : Str := before 44 line

/-- The route is well formed: the header contains exactly one `>`. -/
def wellFormedRoute (line : Str) : Prop := (header line).count 62 = 1

instance (line : Str) : Decidable (wellFormedRoute line) :=
  inferInstanceAs (Decidable ((header line).count 62 = 1))

/-- The packet after the route split of a line with a well-formed route. -/
def routePacket (line : Str) : APRSPacket :=
  { Callsign := before 62 (header line), Destination := after 62 (header line) }

/-- The error messages of the stages after the route split. -/
def stageErrors : List String :=
  [errGPGGAFields, errGPGGALat, errGPGGALon, errGPGGAAlt, errMicE, errLatMin, errLonMin]

/-- The returned error is one of the stage errors. -/
def isStageError (e : Option String) : Prop := ∃ m, m ∈ stageErrors ∧ e = some m

/-- A property of every way a statement sequence can end other than a panic: `Q` for an
executed `return`, `R` for falling through. -/
def Res.All {α : Type} (Q : APRSPacket → Option String → Prop) (R : α → Prop) : Res α → Prop
  | .fault => True
  | .ret p e => Q p e
  | .ok a => R a

/-- The fields that no statement of the source assigns after the route split. -/
def sameRoute (p q : APRSPacket) : Prop :=
  q.Callsign = p.Callsign ∧ q.Destination = p.Destination ∧ q.RawData = p.RawData ∧
    q.Heading = p.Heading ∧ q.PHG = p.PHG ∧ q.Speed = p.Speed

/-- The Status Report test of source line 70. -/
def statusTest (line : Str) : Prop := Index line (bs ":>") > Index line (bs ">")

instance (line : Str) : Decidable (statusTest line) :=
  inferInstanceAs (Decidable (Index line (bs ":>") > Index line (bs ">")))

/-- Go `s[1 : len(s)-1]` for a string of at least two bytes: `s` without its first and its
last byte. -/
def fractionDigits (s : Str) : Str := (s.drop 1).take (s.length - 2)

/-- The unsigned coordinate composed from a GPGGA field with `n` degree digits: the first `n`
bytes of the field followed by `fractionDigits` of the `%f` print of the rest of the field,
read as a float and divided by 60. -/
def unsignedCoordinate (lib : FloatLib) (n : Nat) (field : Str) : Option Str :=
  if n ≤ field.length then
    (lib.ParseFloat (field.drop n)).map
      (fun x => field.take n ++ fractionDigits (lib.Sprintf_f (lib.div60 x)))
  else none

/-- The comma-separated fields of the line from its first `:$GPGGA,` on. -/
def gpggaFields (line : Str) : List Str :=
  Split (line.drop (Index line (bs ":$GPGGA,")).toNat) 44

/-- What a successful GPGGA extractor leaves in the packet `q`: the time is field 1, the
latitude the unsigned coordinate of field 2 (two degree digits) with a `-` in front exactly
when field 3 is `S`, the longitude the unsigned coordinate of field 4 (three degree digits)
with a `-` in front exactly when field 3 is `W`, the altitude the `%f` print of field 9. -/
def gpggaExtracted (lib : FloatLib) (line : Str) (q : APRSPacket) : Prop :=
  ∃ f1 f2 f3 f4 f9 U V z,
    (gpggaFields line).get? 1 = some f1 ∧ (gpggaFields line).get? 2 = some f2 ∧
    (gpggaFields line).get? 3 = some f3 ∧ (gpggaFields line).get? 4 = some f4 ∧
    (gpggaFields line).get? 9 = some f9 ∧
    unsignedCoordinate lib 2 f2 = some U ∧ unsignedCoordinate lib 3 f4 = some V ∧
    lib.ParseFloat f9 = some z ∧
    q.GPSTime = f1 ∧
    q.Latitude = (if f3 = bs "S" then 45 :: U else U) ∧
    q.Longitude = (if f3 = bs "W" then 45 :: V else V) ∧
    q.Altitude = lib.Sprintf_f z

/-- The PacketType assigned before the Location stage: `GPGGA` when the line contains
`:$GPGGA,`, else `Status Report` when the Status Report test holds, else unset. -/
def earlyType (line : Str) : Str :=
  if bs ":$GPGGA," <:+: line then bs "GPGGA"
  else if statusTest line then bs "Status Report" else []

/-- The GPGGA extractor succeeds on the line: fields 2, 4 and 9 of the text from `:$GPGGA,`
on exist, field 2 gives an unsigned coordinate with two degree digits, field 4 one with three
degree digits, and field 9 parses as a float. -/
def gpggaSucceeds (lib : FloatLib) (line : Str) : Prop :=
  (((gpggaFields line).get? 2).bind (unsignedCoordinate lib 2)).isSome = true ∧
  (((gpggaFields line).get? 4).bind (unsignedCoordinate lib 3)).isSome = true ∧
  (((gpggaFields line).get? 9).bind lib.ParseFloat).isSome = true

instance (lib : FloatLib) (line : Str) : Decidable (gpggaSucceeds lib line) :=
  inferInstanceAs (Decidable (_ ∧ _ ∧ _))

/-- The error messages of the GPGGA extractor. -/
def gpggaErrors : List String := [errGPGGAFields, errGPGGALat, errGPGGALon, errGPGGAAlt]

/-! ## Facts about the string primitives -/

theorem Index_ge (s sub : Str) : -1 ≤ Index s sub := by
  induction s with
  | nil => unfold Index; split <;> omega
  | cons c cs ih => unfold Index; simp only; split <;> [omega; (split <;> omega)]

theorem Index_bound (s sub : Str) (h : Index s sub ≠ -1) :
    0 ≤ Index s sub ∧ Index s sub + len sub ≤ len s := by
  induction s with
  | nil =>
    unfold Index at h ⊢
    split at h
    · rename_i hp
      rw [if_pos hp]
      have hl := (List.isPrefixOf_iff_prefix.mp hp).length_le
      simp only [List.length_nil] at hl
      simp only [len, List.length_nil]
      omega
    · exact absurd rfl h
  | cons c cs ih =>
    unfold Index at h ⊢
    simp only at h ⊢
    split
    · rename_i hp
      have := (List.isPrefixOf_iff_prefix.mp hp).length_le
      simp [len] at this ⊢
      omega
    · rename_i hp
      rw [if_neg hp] at h
      split
      · rename_i hr; rw [if_pos hr] at h; exact absurd rfl h
      · rename_i hr
        have := ih hr
        simp [len] at this ⊢
        omega

theorem Index_eq_neg_one_iff (s sub : Str) : Index s sub = -1 ↔ ¬ sub <:+: s := by
  induction s with
  | nil =>
    unfold Index
    rw [List.infix_nil]
    by_cases h : sub = []
    · subst h; simp
    · have : ¬ sub.isPrefixOf [] = true := by
        intro hp
        exact h (List.prefix_nil.mp (List.isPrefixOf_iff_prefix.mp hp))
      simp [this, h]
  | cons c cs ih =>
    unfold Index
    simp only
    rw [List.infix_cons_iff]
    by_cases hp : sub.isPrefixOf (c :: cs) = true
    · rw [if_pos hp]
      have := List.isPrefixOf_iff_prefix.mp hp
      simp [this]
    · rw [if_neg hp]
      have hn : ¬ sub <+: c :: cs := fun h => hp (List.isPrefixOf_iff_prefix.mpr h)
      have hge := Index_ge cs sub
      by_cases hr : Index cs sub = -1
      · rw [if_pos hr]; simp [hn, ih.mp hr]
      · rw [if_neg hr]
        have hi : sub <:+: cs := by
          by_contra hc
          exact hr (ih.mpr hc)
        constructor
        · intro h; omega
        · intro h; exact absurd (Or.inr hi) h

theorem Index_ne_neg_one_iff (s sub : Str) : Index s sub ≠ -1 ↔ sub <:+: s := by
  rw [Ne, Index_eq_neg_one_iff, not_not]

theorem Contains_iff (s sub : Str) : Contains s sub = true ↔ sub <:+: s := by
  rw [← Index_ne_neg_one_iff]
  have := Index_ge s sub
  simp [Contains]
  omega

theorem singleton_infix_iff (c : Nat) (s : Str) : [c] <:+: s ↔ c ∈ s := by
  constructor
  · intro h
    exact h.subset (List.mem_singleton_self c)
  · intro h
    obtain ⟨a, b, rfl⟩ := List.append_of_mem h
    exact ⟨a, b, by simp⟩

theorem Split_cons (x : Nat) (xs : Str) (c : Nat) :
    Split (x :: xs) c =
      if x = c then [] :: Split xs c
      else match Split xs c with
        | [] => [[x]]
        | h :: t => (x :: h) :: t := by
  rw [Split]

theorem Split_ne_nil (s : Str) (c : Nat) : Split s c ≠ [] := by
  cases s with
  | nil => simp [Split]
  | cons x xs =>
    rw [Split_cons]
    split
    · simp
    · split <;> simp

theorem Split_length (s : Str) (c : Nat) : (Split s c).length = s.count c + 1 := by
  induction s with
  | nil => simp [Split]
  | cons x xs ih =>
    rw [Split_cons]
    by_cases h : x = c
    · subst h; simp [ih]
    · rw [if_neg h]
      have hne := Split_ne_nil xs c
      rw [List.count_cons_of_ne (Ne.symm h)]
      cases hs : Split xs c with
      | nil => exact absurd hs hne
      | cons a t => rw [hs] at ih; simpa using ih

theorem Split_of_not_mem (s : Str) (c : Nat) (h : c ∉ s) : Split s c = [s] := by
  induction s with
  | nil => simp [Split]
  | cons x xs ih =>
    have hx : ¬ x = c := fun e => h (by simp [e])
    have hxs : c ∉ xs := fun e => h (by simp [e])
    rw [Split_cons, if_neg hx, ih hxs]

theorem before_not_mem (c : Nat) (s : Str) : c ∉ before c s := by
  induction s with
  | nil => simp [before]
  | cons x xs ih =>
    by_cases hx : x = c
    · simp [before, hx]
    · simp [before, hx, ih, Ne.symm hx]

theorem before_after (c : Nat) (s : Str) (h : c ∈ s) : s = before c s ++ c :: after c s := by
  induction s with
  | nil => simp at h
  | cons x xs ih =>
    by_cases hx : x = c
    · subst hx; simp [before, after]
    · have hc : c ∈ xs := by
        rcases List.mem_cons.mp h with e | e
        · exact absurd e.symm hx
        · exact e
      simp only [before, after, if_neg hx, List.cons_append]
      rw [← ih hc]

theorem before_of_not_mem (c : Nat) (s : Str) (h : c ∉ s) : before c s = s := by
  induction s with
  | nil => simp [before]
  | cons x xs ih =>
    have hx : ¬ x = c := fun e => h (by simp [e])
    have hxs : c ∉ xs := fun e => h (by simp [e])
    simp [before, hx, ih hxs]

theorem before_append (c : Nat) (a b : Str) (h : c ∉ a) : before c (a ++ c :: b) = a := by
  induction a with
  | nil => simp [before]
  | cons x xs ih =>
    have hx : ¬ x = c := fun e => h (by simp [e])
    have hxs : c ∉ xs := fun e => h (by simp [e])
    simp [before, hx, ih hxs]

theorem after_append (c : Nat) (a b : Str) (h : c ∉ a) : after c (a ++ c :: b) = b := by
  induction a with
  | nil => simp [after]
  | cons x xs ih =>
    have hx : ¬ x = c := fun e => h (by simp [e])
    have hxs : c ∉ xs := fun e => h (by simp [e])
    simp [after, hx, ih hxs]

theorem Split_cons_form (s : Str) (c : Nat) :
    Split s c = before c s :: (if c ∈ s then Split (after c s) c else []) := by
  induction s with
  | nil => simp [Split, before]
  | cons x xs ih =>
    rw [Split_cons]
    by_cases h : x = c
    · subst h; simp [before, after]
    · rw [if_neg h, ih]
      have hc : (c ∈ x :: xs) ↔ c ∈ xs := by
        simp [List.mem_cons, Ne.symm h]
      simp [before, after, h, hc]

theorem Split_head (s : Str) (c : Nat) : (Split s c).get? 0 = some (before c s) := by
  rw [Split_cons_form]; rfl

/-- When `Split s c` has exactly two pieces they are the text before and after the one `c`. -/
theorem Split_two (s : Str) (c : Nat) (h : (Split s c).length = 2) :
    c ∈ s ∧ c ∉ after c s ∧ Split s c = [before c s, after c s] := by
  rw [Split_length] at h
  have hc : c ∈ s := List.count_pos_iff.mp (by omega)
  have hs := before_after c s hc
  have hcnt : (after c s).count c = 0 := by
    have h2 : (before c s ++ c :: after c s).count c = 1 := by rw [← hs]; omega
    rw [List.count_append, List.count_cons_self,
      List.count_eq_zero_of_not_mem (before_not_mem c s)] at h2
    omega
  have hna : c ∉ after c s := List.count_eq_zero.mp hcnt
  refine ⟨hc, hna, ?_⟩
  rw [Split_cons_form, if_pos hc, Split_of_not_mem _ _ hna]

/-! ## Reasoning about the control flow -/

theorem Res.All_ret {α : Type} (Q : APRSPacket → Option String → Prop) (R : α → Prop)
    (p : APRSPacket) (e : Option String) : Res.All Q R (Res.ret p e : Res α) ↔ Q p e := Iff.rfl

theorem Res.All_pure {α : Type} (Q : APRSPacket → Option String → Prop) (R : α → Prop)
    (a : α) : Res.All Q R (pure a) ↔ R a := Iff.rfl

theorem Res.All_bind {α β : Type} (Q : APRSPacket → Option String → Prop) (R : β → Prop)
    (r : Res α) (k : α → Res β) :
    Res.All Q R (r >>= k) ↔ Res.All Q (fun a => Res.All Q R (k a)) r := by
  cases r <;> rfl

theorem Res.All_orFault {α : Type} (Q : APRSPacket → Option String → Prop) (R : α → Prop)
    (o : Option α) : Res.All Q R (orFault o) ↔ ∀ a, o = some a → R a := by
  cases o <;> simp [orFault, Res.All]

theorem Res.All_ite {α : Type} (Q : APRSPacket → Option String → Prop) (R : α → Prop)
    (c : Prop) [Decidable c] (x y : Res α) :
    Res.All Q R (if c then x else y) ↔ (c → Res.All Q R x) ∧ (¬ c → Res.All Q R y) := by
  split <;> simp [*]

theorem Res.All_mono {α : Type} {Q Q2 : APRSPacket → Option String → Prop} {R R2 : α → Prop}
    {r : Res α} (h : Res.All Q R r) (hQ : ∀ p e, Q p e → Q2 p e) (hR : ∀ a, R a → R2 a) :
    Res.All Q2 R2 r := by
  cases r with
  | fault => trivial
  | ret p e => exact hQ p e h
  | ok a => exact hR a h

theorem Res.All_parseFloatOr (Q : APRSPacket → Option String → Prop) (lib : FloatLib)
    (R : lib.F → Prop) (s : Str) (p : APRSPacket) (msg : String) :
    Res.All Q R (parseFloatOr lib s p msg) ↔
      (lib.ParseFloat s = none → Q p (some msg)) ∧ (∀ f, lib.ParseFloat s = some f → R f) := by
  unfold parseFloatOr
  cases lib.ParseFloat s <;> simp [Res.All]

theorem Res.finish_All {Q : APRSPacket → Option String → Prop} {R : APRSPacket → Prop}
    {r : Res APRSPacket} (h : Res.All Q R r) {p : APRSPacket} {e : Option String}
    (hf : r.finish = .ret p e) : Q p e ∨ (e = none ∧ R p) := by
  cases r with
  | fault => simp [Res.finish] at hf
  | ret q e2 =>
    simp only [Res.finish, Outcome.ret.injEq] at hf
    obtain ⟨rfl, rfl⟩ := hf
    exact Or.inl h
  | ok q =>
    simp only [Res.finish, Outcome.ret.injEq] at hf
    obtain ⟨rfl, rfl⟩ := hf
    exact Or.inr ⟨rfl, h⟩

theorem sameRoute_refl (p : APRSPacket) : sameRoute p p := by simp [sameRoute]

theorem sameRoute_trans {p q r : APRSPacket} (h1 : sameRoute p q) (h2 : sameRoute q r) :
    sameRoute p r := by
  simp only [sameRoute] at *
  obtain ⟨a1, a2, a3, a4, a5, a6⟩ := h1
  obtain ⟨b1, b2, b3, b4, b5, b6⟩ := h2
  exact ⟨b1.trans a1, b2.trans a2, b3.trans a3, b4.trans a4, b5.trans a5, b6.trans a6⟩

theorem statusStage_route (input : Str) (p : APRSPacket) :
    Res.All (fun q _ => sameRoute p q) (sameRoute p) (statusStage input p) := by
  unfold statusStage
  simp only [Res.All_ite, Res.All_bind, Res.All_orFault, Res.All_pure, Res.All_ret,
    Res.All_parseFloatOr]
  simp [sameRoute]

theorem gpggaStage_route (lib : FloatLib) (input : Str) (p : APRSPacket) :
    Res.All (fun q _ => sameRoute p q) (sameRoute p) (gpggaStage lib input p) := by
  unfold gpggaStage
  simp only [Res.All_ite, Res.All_bind, Res.All_orFault, Res.All_pure, Res.All_ret,
    Res.All_parseFloatOr]
  simp [sameRoute]

theorem micEStage_route (input : Str) (p : APRSPacket) :
    Res.All (fun q _ => sameRoute p q) (sameRoute p) (micEStage input p) := by
  unfold micEStage
  simp only [Res.All_ite, Res.All_bind, Res.All_orFault, Res.All_pure, Res.All_ret,
    Res.All_parseFloatOr]
  simp [sameRoute]

theorem weatherStage_route (input : Str) (L : Int) (p : APRSPacket) :
    Res.All (fun q _ => sameRoute p q) (sameRoute p) (weatherStage input L p) := by
  unfold weatherStage
  simp only [Res.All_ite, Res.All_bind, Res.All_orFault, Res.All_pure, Res.All_ret,
    Res.All_parseFloatOr]
  simp [sameRoute]

theorem locationStage_route (lib : FloatLib) (input : Str) (p : APRSPacket) :
    Res.All (fun q _ => sameRoute p q) (sameRoute p) (locationStage lib input p) := by
  unfold locationStage
  simp only [Res.All_ite, Res.All_bind, Res.All_orFault, Res.All_pure, Res.All_ret,
    Res.All_parseFloatOr]
  intros
  refine ⟨?_, ?_⟩
  · intros
    refine ⟨?_, ?_⟩
    · intros; simp [sameRoute]
    · intros
      refine ⟨?_, ?_⟩
      · intros; simp [sameRoute]
      · intros
        exact Res.All_mono (weatherStage_route _ _ _)
          (fun _ _ h => sameRoute_trans (by simp [sameRoute]) h)
          (fun _ h => sameRoute_trans (by simp [sameRoute]) h)
  · intros; exact sameRoute_refl p

/-! ## The stages of `ParseAPRSPacket` -/

theorem statusStage_errors (input : Str) (p : APRSPacket) :
    Res.All (fun _ e => isStageError e) (fun _ => True) (statusStage input p) := by
  unfold statusStage
  simp only [Res.All_ite, Res.All_bind, Res.All_orFault, Res.All_pure, Res.All_ret,
    Res.All_parseFloatOr]
  simp [isStageError, stageErrors]

theorem gpggaStage_errors (lib : FloatLib) (input : Str) (p : APRSPacket) :
    Res.All (fun _ e => isStageError e) (fun _ => True) (gpggaStage lib input p) := by
  unfold gpggaStage
  simp only [Res.All_ite, Res.All_bind, Res.All_orFault, Res.All_pure, Res.All_ret,
    Res.All_parseFloatOr]
  simp [isStageError, stageErrors]

theorem micEStage_errors (input : Str) (p : APRSPacket) :
    Res.All (fun _ e => isStageError e) (fun _ => True) (micEStage input p) := by
  unfold micEStage
  simp only [Res.All_ite, Res.All_bind, Res.All_orFault, Res.All_pure, Res.All_ret,
    Res.All_parseFloatOr]
  simp [isStageError, stageErrors]

theorem weatherStage_errors (input : Str) (L : Int) (p : APRSPacket) :
    Res.All (fun _ e => isStageError e) (fun _ => True) (weatherStage input L p) := by
  unfold weatherStage
  simp only [Res.All_ite, Res.All_bind, Res.All_orFault, Res.All_pure, Res.All_ret,
    Res.All_parseFloatOr]
  simp [isStageError, stageErrors]

theorem locationStage_errors (lib : FloatLib) (input : Str) (p : APRSPacket) :
    Res.All (fun _ e => isStageError e) (fun _ => True) (locationStage lib input p) := by
  unfold locationStage
  simp only [Res.All_ite, Res.All_bind, Res.All_orFault, Res.All_pure, Res.All_ret,
    Res.All_parseFloatOr]
  intros
  refine ⟨?_, ?_⟩
  · intros
    refine ⟨?_, ?_⟩
    · intros; simp [isStageError, stageErrors]
    · intros
      refine ⟨?_, ?_⟩
      · intros; simp [isStageError, stageErrors]
      · intros
        exact weatherStage_errors _ _ _
  · intros; trivial

theorem stages_route (lib : FloatLib) (input : Str) (p : APRSPacket) :
    Res.All (fun q _ => sameRoute p q) (sameRoute p) (stages lib input p) := by
  unfold stages
  simp only [Res.All_bind]
  refine Res.All_mono (statusStage_route input p) (fun _ _ h => h) ?_
  intro a ha
  refine Res.All_mono (gpggaStage_route lib input a) (fun _ _ h => sameRoute_trans ha h) ?_
  intro b hb
  have hab := sameRoute_trans ha hb
  refine Res.All_mono (micEStage_route input b) (fun _ _ h => sameRoute_trans hab h) ?_
  intro c hc
  have hac := sameRoute_trans hab hc
  exact Res.All_mono (locationStage_route lib input c) (fun _ _ h => sameRoute_trans hac h)
    (fun _ h => sameRoute_trans hac h)

theorem stages_errors (lib : FloatLib) (input : Str) (p : APRSPacket) :
    Res.All (fun _ e => isStageError e) (fun _ => True) (stages lib input p) := by
  unfold stages
  simp only [Res.All_bind]
  refine Res.All_mono (statusStage_errors input p) (fun _ _ h => h) ?_
  intro a _
  refine Res.All_mono (gpggaStage_errors lib input a) (fun _ _ h => h) ?_
  intro b _
  refine Res.All_mono (micEStage_errors input b) (fun _ _ h => h) ?_
  intro c _
  exact locationStage_errors lib input c

theorem before_subset (c : Nat) (s : Str) : ∀ x, x ∈ before c s → x ∈ s := by
  induction s with
  | nil => simp [before]
  | cons y ys ih =>
    intro x hx
    by_cases hy : y = c
    · simp [before, hy] at hx
    · simp only [before, if_neg hy, List.mem_cons] at hx ⊢
      rcases hx with e | e
      · exact Or.inl e
      · exact Or.inr (ih x e)

theorem after_subset (c : Nat) (s : Str) : ∀ x, x ∈ after c s → x ∈ s := by
  induction s with
  | nil => simp [after]
  | cons y ys ih =>
    intro x hx
    by_cases hy : y = c
    · simp only [after, if_pos hy] at hx
      exact List.mem_cons_of_mem _ hx
    · simp only [after, if_neg hy] at hx
      exact List.mem_cons_of_mem _ (ih x hx)

theorem gt_mem_of_wellFormed (line : Str) (h : wellFormedRoute line) : 62 ∈ line := by
  have : 62 ∈ header line := List.count_pos_iff.mp (by unfold wellFormedRoute at h; omega)
  exact before_subset 44 line 62 this

theorem bs_gt : bs ">" = [62] := rfl

theorem Contains_gt (line : Str) : Contains line (bs ">") = true ↔ 62 ∈ line := by
  rw [Contains_iff, bs_gt, singleton_infix_iff]

/-- On a line with a well-formed route the function runs the four stages on the route packet. -/
theorem Parse_wellFormed (lib : FloatLib) (line : Str) (h : wellFormedRoute line) :
    ParseAPRSPacket lib line = (stages lib line (routePacket line)).finish := by
  have hgt := gt_mem_of_wellFormed line h
  have hne : line ≠ [] := by rintro rfl; simp at hgt
  have hlen : (Split (before 44 line) 62).length = 2 := by
    rw [Split_length]; unfold wellFormedRoute header at h; omega
  obtain ⟨_, _, h2⟩ := Split_two _ _ hlen
  unfold ParseAPRSPacket
  rw [if_neg hne, if_neg (by simpa [Contains_gt] using hgt)]
  simp only [Split_head, hlen, h2]
  simp [stages, routePacket, header]

/-- On a non-empty line with a `>` whose route is not well formed the function returns the
route error. -/
theorem Parse_malformed (lib : FloatLib) (line : Str) (hne : line ≠ []) (hgt : 62 ∈ line)
    (h : ¬ wellFormedRoute line) : ParseAPRSPacket lib line = .ret {} (some errRoute) := by
  have hlen : (Split (before 44 line) 62).length ≠ 2 := by
    rw [Split_length]; unfold wellFormedRoute header at h; omega
  unfold ParseAPRSPacket
  rw [if_neg hne, if_neg (by simpa [Contains_gt] using hgt)]
  simp only [Split_head]
  rw [if_pos hlen]

theorem Parse_no_gt (lib : FloatLib) (line : Str) (hne : line ≠ []) (hgt : 62 ∉ line) :
    ParseAPRSPacket lib line = .ret {} (some errUnsupported) := by
  unfold ParseAPRSPacket
  rw [if_neg hne, if_pos (by simpa [Contains_gt] using hgt)]

theorem Parse_blank (lib : FloatLib) : ParseAPRSPacket lib [] = .ret {} (some errBlank) := by
  unfold ParseAPRSPacket
  rw [if_pos rfl]

/-! ## What each stage computes -/

theorem Res.bind_ok {α β : Type} (a : α) (k : α → Res β) : (Res.ok a >>= k) = k a := rfl

theorem Res.bind_ret {α β : Type} (p : APRSPacket) (e : Option String) (k : α → Res β) :
    ((Res.ret p e : Res α) >>= k) = Res.ret p e := rfl

theorem Res.pure_eq {α : Type} (a : α) : (pure a : Res α) = Res.ok a := rfl

theorem orFault_some {α : Type} (a : α) : orFault (some a) = Res.ok a := rfl

theorem slice_of_bounds (s : Str) (lo hi : Int) (h0 : 0 ≤ lo) (h1 : lo ≤ hi) (h2 : hi ≤ len s) :
    slice s lo hi = some ((s.drop lo.toNat).take (hi.toNat - lo.toNat)) := by
  unfold slice
  rw [if_pos ⟨h0, h1, h2⟩]

theorem take_one_drop (s : Str) (n a : Nat) (h : s.get? n = some a) : (s.drop n).take 1 = [a] := by
  induction s generalizing n with
  | nil => simp at h
  | cons x xs ih =>
    cases n with
    | zero => simp at h; simp [h]
    | succ m => exact ih m (by simpa using h)

theorem slice_one (s : Str) (i : Int) (a : Nat) (h0 : 0 ≤ i) (h : s.get? i.toNat = some a) :
    slice s i (i + 1) = some [a] := by
  have hlt : i.toNat < s.length := by
    by_contra hc
    rw [List.get?_eq_none.mpr (by omega)] at h
    exact absurd h (by simp)
  rw [slice_of_bounds s i (i + 1) h0 (by omega) (by unfold len; omega)]
  have : (i + 1).toNat - i.toNat = 1 := by omega
  rw [this, take_one_drop s _ a h]

theorem LocationSlice_get (s : Str) (i k : Int) (a : Nat) (h0 : 0 ≤ i + k)
    (h : s.get? (i + k).toNat = some a) : LocationSlice s i k = some (ToUpper1 [a]) := by
  unfold LocationSlice
  rw [slice_one s (i + k) a h0 h]
  rfl

theorem ToUpper1_location (a : Nat) (h : a ∉ [104, 72, 122, 90, 47]) :
    ¬ (ToUpper1 [a] = bs "H" ∨ ToUpper1 [a] = bs "Z" ∨ ToUpper1 [a] = bs "/") := by
  have e1 : bs "H" = [72] := rfl
  have e2 : bs "Z" = [90] := rfl
  have e3 : bs "/" = [47] := rfl
  simp only [List.mem_cons, List.mem_singleton, List.not_mem_nil, or_false, not_or] at h
  rw [e1, e2, e3]
  simp only [ToUpper1]
  split_ifs <;> simp <;> omega

theorem ToUpper1_timestamp (b : Nat) (h : b ∉ [115, 83, 110, 78]) :
    ¬ (ToUpper1 [b] = bs "S" ∨ ToUpper1 [b] = bs "N") := by
  have e1 : bs "S" = [83] := rfl
  have e2 : bs "N" = [78] := rfl
  simp only [List.mem_cons, List.mem_singleton, List.not_mem_nil, or_false, not_or] at h
  rw [e1, e2]
  simp only [ToUpper1]
  split_ifs <;> simp <;> omega

theorem ToLowerByte_eq_z (b : Nat) : ToLowerByte b = bs "z" ↔ b = 122 ∨ b = 90 := by
  have e : bs "z" = [122] := rfl
  rw [e]
  unfold ToLowerByte runeString toLowerRune
  split_ifs <;> simp <;> omega

theorem locationPtr_nonneg (input : Str) : 0 ≤ locationPtr input := by
  unfold locationPtr
  have h1 := Index_ge input (bs ":@")
  have h2 := Index_ge input (bs ":=")
  simp only
  split_ifs <;> omega

theorem statusStage_skip (input : Str) (p : APRSPacket)
    (h : ¬ Index input (bs ":>") > Index input (bs ">")) : statusStage input p = .ok p := by
  unfold statusStage
  simp only
  rw [if_neg h]
  rfl

/-- The bounds that make the slices of the Status Report extractor legal. -/
theorem status_bounds (input : Str) (h : Index input (bs ":>") > Index input (bs ">")) :
    0 ≤ Index input (bs ":>") ∧ Index input (bs ":>") + 2 ≤ len input := by
  have h1 := Index_ge input (bs ">")
  have h2 := Index_bound input (bs ":>") (by omega)
  have e : len (bs ":>") = 2 := rfl
  rw [e] at h2
  exact h2

theorem status_raw (input : Str) (h : Index input (bs ":>") > Index input (bs ">")) :
    slice input (Index input (bs ":>") + 2)
        ((Index input (bs ":>") + 2) + (len input - Index input (bs ":>") - 2)) =
      some (input.drop (Index input (bs ":>") + 2).toNat) := by
  obtain ⟨h0, h2⟩ := status_bounds input h
  rw [slice_of_bounds _ _ _ (by omega) (by omega) (by omega)]
  rw [List.take_of_length_le]
  simp only [List.length_drop]
  unfold len at h2 ⊢
  omega

/-- Without a `z` in seventh place the status is all the text after the marker. -/
theorem statusStage_plain (input : Str) (p : APRSPacket)
    (h : Index input (bs ":>") > Index input (bs ">"))
    (hz : ∀ b, (input.drop (Index input (bs ":>") + 2).toNat).get? 6 = some b →
      b ≠ 122 ∧ b ≠ 90) :
    statusStage input p = .ok { p with
      PacketType := bs "Status Report",
      Status := input.drop (Index input (bs ":>") + 2).toNat } := by
  have hraw := status_raw input h
  have hraw2 : slice input (Index input (bs ":>") + 2)
      ((Index input (bs ":>") + 2) + len input - Index input (bs ":>") - 2) =
      some (input.drop (Index input (bs ":>") + 2).toNat) := by
    rw [← hraw]; congr 1; omega
  have hc : ¬ ((input.drop (Index input (bs ":>") + 2).toNat).length > 6 ∧
      ((input.drop (Index input (bs ":>") + 2).toNat).get? 6).map ToLowerByte =
        some (bs "z")) := by
    rintro ⟨_, h2⟩
    cases hg : (input.drop (Index input (bs ":>") + 2).toNat).get? 6 with
    | none => rw [hg] at h2; simp at h2
    | some b =>
      rw [hg] at h2
      simp only [Option.map_some', Option.some.injEq] at h2
      have := hz b hg
      rcases (ToLowerByte_eq_z b).mp h2 with e | e <;> omega
  unfold statusStage
  simp only
  rw [if_pos h, hraw, orFault_some, Res.bind_ok, if_neg hc, hraw2, orFault_some, Res.bind_ok]
  rfl

/-- With a `z` in seventh place the extractor takes the six bytes after the marker as time
and, as status, the text after the marker without the last seven bytes of the line. -/
theorem statusStage_stamped (input : Str) (p : APRSPacket)
    (h : Index input (bs ":>") > Index input (bs ">"))
    (hz : (input.drop (Index input (bs ":>") + 2).toNat).get? 6 = some 122 ∨
      (input.drop (Index input (bs ":>") + 2).toNat).get? 6 = some 90) :
    statusStage input p = .ok { p with
      PacketType := bs "Status Report",
      GPSTime := (input.drop (Index input (bs ":>") + 2).toNat).take 6,
      Status := (input.drop (Index input (bs ":>") + 2).toNat).take
        ((input.drop (Index input (bs ":>") + 2).toNat).length - 7) } := by
  have hraw := status_raw input h
  obtain ⟨h0, h2⟩ := status_bounds input h
  have hlen : 6 < (input.drop (Index input (bs ":>") + 2).toNat).length := by
    by_contra hc
    rw [List.get?_eq_none.mpr (by omega)] at hz
    simp at hz
  have hc : (input.drop (Index input (bs ":>") + 2).toNat).length > 6 ∧
      ((input.drop (Index input (bs ":>") + 2).toNat).get? 6).map ToLowerByte =
        some (bs "z") := by
    refine ⟨hlen, ?_⟩
    rcases hz with e | e <;> rw [e] <;> rfl
  have hl2 := hlen
  simp only [List.length_drop] at hl2
  have ht : slice input (Index input (bs ":>") + 2) (Index input (bs ":>") + 8) =
      some ((input.drop (Index input (bs ":>") + 2).toNat).take 6) := by
    rw [slice_of_bounds _ _ _ (by omega) (by omega) (by unfold len; omega)]
    congr 2; omega
  have hs : slice input (Index input (bs ":>") + 2)
      ((Index input (bs ":>") + 2) + len input - Index input (bs ":>") - 9) =
      some ((input.drop (Index input (bs ":>") + 2).toNat).take
        ((input.drop (Index input (bs ":>") + 2).toNat).length - 7)) := by
    rw [slice_of_bounds _ _ _ (by omega) (by unfold len; omega) (by unfold len; omega)]
    congr 2
    simp only [List.length_drop]
    unfold len
    omega
  unfold statusStage
  simp only
  rw [if_pos h, hraw, orFault_some, Res.bind_ok, if_pos hc, ht, orFault_some, Res.bind_ok, hs,
    orFault_some, Res.bind_ok]
  rfl

/-- The Status Report stage neither panics nor returns. -/
theorem statusStage_ok (input : Str) (p : APRSPacket) : ∃ q, statusStage input p = .ok q := by
  by_cases h : Index input (bs ":>") > Index input (bs ">")
  · by_cases hz : (input.drop (Index input (bs ":>") + 2).toNat).get? 6 = some 122 ∨
        (input.drop (Index input (bs ":>") + 2).toNat).get? 6 = some 90
    · exact ⟨_, statusStage_stamped input p h hz⟩
    · refine ⟨_, statusStage_plain input p h ?_⟩
      intro b hb
      constructor
      · rintro rfl; exact hz (Or.inl hb)
      · rintro rfl; exact hz (Or.inr hb)
  · exact ⟨_, statusStage_skip input p h⟩

theorem gpggaStage_skip (lib : FloatLib) (input : Str) (p : APRSPacket)
    (h : ¬ bs ":$GPGGA," <:+: input) : gpggaStage lib input p = .ok p := by
  unfold gpggaStage
  rw [if_neg (by rw [Contains_iff]; exact h)]
  rfl

theorem micEStage_skip (input : Str) (p : APRSPacket)
    (h1 : ¬ bs ":`" <:+: input) (h2 : ¬ bs ":'" <:+: input) : micEStage input p = .ok p := by
  unfold micEStage
  rw [if_neg (by rw [Index_ne_neg_one_iff, Index_ne_neg_one_iff]; tauto)]
  rfl

theorem micEStage_hit (input : Str) (p : APRSPacket)
    (h : bs ":`" <:+: input ∨ bs ":'" <:+: input) :
    micEStage input p = .ret { p with
      PacketType := if Index input (bs ":`") ≠ -1 then bs "New Mic-E" else bs "Old Mic-E" }
      (some errMicE) := by
  unfold micEStage
  rw [if_pos (by rw [Index_ne_neg_one_iff, Index_ne_neg_one_iff]; exact h)]

/-- When both probes are in range and neither matches, the Location stage changes nothing. -/
theorem locationStage_skip (lib : FloatLib) (input : Str) (p : APRSPacket) (a b : Nat)
    (ha : input.get? (locationPtr input + 8).toNat = some a)
    (hna : a ∉ [104, 72, 122, 90, 47])
    (hb : input.get? (Index input (bs ":!") + 9).toNat = some b)
    (hnb : Index input (bs ":!") = -1 ∨ b ∉ [115, 83, 110, 78]) :
    locationStage lib input p = .ok p := by
  have hL := locationPtr_nonneg input
  have hT := Index_ge input (bs ":!")
  have h1 := LocationSlice_get input (locationPtr input) 8 a (by omega) ha
  have h2 := LocationSlice_get input (Index input (bs ":!")) 9 b (by omega) hb
  have hc : ¬ ((locationPtr input ≠ -1 ∧
        (ToUpper1 [a] = bs "H" ∨ ToUpper1 [a] = bs "Z" ∨ ToUpper1 [a] = bs "/")) ∨
      (Index input (bs ":!") ≠ -1 ∧ (ToUpper1 [b] = bs "S" ∨ ToUpper1 [b] = bs "N"))) := by
    rintro (⟨_, h⟩ | ⟨hne, h⟩)
    · exact ToUpper1_location a hna h
    · rcases hnb with e | e
      · exact hne e
      · exact ToUpper1_timestamp b e h
  unfold locationStage
  simp only
  rw [h1, orFault_some, Res.bind_ok, h2, orFault_some, Res.bind_ok, if_neg hc]
  rfl

/-! ## The route split -/

theorem before_before (line : Str) (h : 62 ∈ before 44 line) :
    before 62 (before 44 line) = before 62 line := by
  induction line with
  | nil => simp [before] at h
  | cons x xs ih =>
    by_cases h44 : x = 44
    · simp [before, h44] at h
    · by_cases h62 : x = 62
      · simp [before, h62]
      · simp only [before, if_neg h44, List.mem_cons] at h ⊢
        have hx : 62 ∈ before 44 xs := by
          rcases h with e | e
          · exact absurd e.symm h62
          · exact e
        simp only [if_neg h62, ih hx]

theorem after_before (line : Str) (h : 62 ∈ before 44 line) :
    after 62 (before 44 line) = before 44 (after 62 line) := by
  induction line with
  | nil => simp [before] at h
  | cons x xs ih =>
    by_cases h44 : x = 44
    · simp [before, h44] at h
    · by_cases h62 : x = 62
      · simp [before, after, h62]
      · simp only [before, if_neg h44, List.mem_cons] at h ⊢
        have hx : 62 ∈ before 44 xs := by
          rcases h with e | e
          · exact absurd e.symm h62
          · exact e
        simp only [after, if_neg h62, ih hx]

theorem line_header_rest (line : Str) :
    ∃ rest, line = before 44 line ++ rest ∧ (rest = [] ∨ ∃ r, rest = 44 :: r) := by
  by_cases h : 44 ∈ line
  · exact ⟨44 :: after 44 line, before_after 44 line h, Or.inr ⟨_, rfl⟩⟩
  · exact ⟨[], by rw [before_of_not_mem 44 line h, List.append_nil], Or.inl rfl⟩

/-- Every way `ParseAPRSPacket` can end without a panic: the blank-line error, the
unsupported-packet error, the route error, each with an empty packet, or the end of the four
stages run on the route packet of a line with a well-formed route. -/
theorem Parse_cases (lib : FloatLib) (line : Str) :
    (line = [] ∧ ParseAPRSPacket lib line = .ret {} (some errBlank)) ∨
    (line ≠ [] ∧ 62 ∉ line ∧ ParseAPRSPacket lib line = .ret {} (some errUnsupported)) ∨
    (line ≠ [] ∧ 62 ∈ line ∧ ¬ wellFormedRoute line ∧
      ParseAPRSPacket lib line = .ret {} (some errRoute)) ∨
    (wellFormedRoute line ∧
      ParseAPRSPacket lib line = (stages lib line (routePacket line)).finish) := by
  by_cases hne : line = []
  · subst hne; exact Or.inl ⟨rfl, Parse_blank lib⟩
  · by_cases hgt : 62 ∈ line
    · by_cases hw : wellFormedRoute line
      · exact Or.inr (Or.inr (Or.inr ⟨hw, Parse_wellFormed lib line hw⟩))
      · exact Or.inr (Or.inr (Or.inl ⟨hne, hgt, hw, Parse_malformed lib line hne hgt hw⟩))
    · exact Or.inr (Or.inl ⟨hne, hgt, Parse_no_gt lib line hne hgt⟩)

theorem isStageError_ne_blank (e : Option String) (h : isStageError e) : e ≠ some errBlank := by
  obtain ⟨m, hm, rfl⟩ := h
  intro he
  simp only [Option.some.injEq] at he
  subst he
  revert hm
  decide

theorem not_isStageError_none : ¬ isStageError none := by
  rintro ⟨m, _, h⟩
  exact absurd h (by simp)

/-- With a Mic-E marker in the line the stages never reach their end. -/
theorem stages_micE (lib : FloatLib) (input : Str) (p : APRSPacket)
    (hm : bs ":`" <:+: input ∨ bs ":'" <:+: input) :
    Res.All (fun _ e => isStageError e) (fun _ => False) (stages lib input p) := by
  unfold stages
  simp only [Res.All_bind]
  refine Res.All_mono (statusStage_errors input p) (fun _ _ h => h) ?_
  intro a _
  refine Res.All_mono (gpggaStage_errors lib input a) (fun _ _ h => h) ?_
  intro b _
  rw [micEStage_hit input b hm]
  exact ⟨errMicE, by decide, rfl⟩

/-! ## The claims -/

/-- C1: the claim that a short line gives a truncated-packet error fails on the code: on the
truncated Location line `A>B:@123456z` the function panics with a slice out of range (the
symbol slice at `LocationPtr+20`) instead of returning. -/
theorem C1_truncated_location_line_faults :
    ParseAPRSPacket goFloat (bs "A>B:@123456z") = Outcome.fault := by
  decide

/-- C3: the claim that a line with a well-formed route and none of the markers comes back
unclassified fails on the code: the line `N0CALL>AZ4807.03N/01131.00E-` has no marker, and
because `LocationPtr` starts at 0 and is never -1 the probe reads byte 8 of the line (`Z`),
so the line is decoded as a Location packet with the time taken from bytes 1 to 6. -/
theorem C3_unmarked_line_decoded_as_location :
    wellFormedRoute (bs "N0CALL>AZ4807.03N/01131.00E-") ∧
    (∀ m ∈ [bs ":>", bs ":$GPGGA,", bs ":`", bs ":'", bs ":@", bs ":=", bs ":!"],
      ¬ m <:+: bs "N0CALL>AZ4807.03N/01131.00E-") ∧
    ParseAPRSPacket goFloat (bs "N0CALL>AZ4807.03N/01131.00E-") =
      .ret { Callsign := bs "N0CALL", Destination := bs "AZ4807.03N/01131.00E-",
             PacketType := bs "Location", GPSTime := bs "0CALL>", Symbol := bs "/-",
             Latitude := bs "48.11716", Longitude := bs "11.51666" } none := by
  refine ⟨by decide, by decide, by decide⟩

/-- C4, the claim as stated fails: in `A>B:>hello` the marker `:>` comes after the routing
`>` and no `z` follows, but the header holds two `>` and the function returns the route
error with an empty packet. -/
theorem C4_counterexample :
    Index (bs "A>B:>hello") (bs ":>") > Index (bs "A>B:>hello") (bs ">") ∧
    ((bs "A>B:>hello").drop 5).get? 6 = none ∧
    ParseAPRSPacket goFloat (bs "A>B:>hello") = .ret {} (some errRoute) := by
  refine ⟨by decide, by decide, by decide⟩

/-- C4 amended: on a line with a well-formed route in which the first `:>` comes after the
first `>`, the seventh byte after `:>` is not `z` or `Z`, there is no `:$GPGGA,` and no
Mic-E marker, and both Location probes (byte `LocationPtr+8`, byte `TimestampPtr+9`) are in
the line and do not match, the function returns without error the packet with the route,
PacketType `Status Report` and Status all the text after `:>`. -/
theorem C4_status_report (lib : FloatLib) (line : Str) (a b : Nat)
    (hroute : wellFormedRoute line)
    (hs : Index line (bs ":>") > Index line (bs ">"))
    (hz : ∀ c, (line.drop (Index line (bs ":>") + 2).toNat).get? 6 = some c →
      c ≠ 122 ∧ c ≠ 90)
    (hg : ¬ bs ":$GPGGA," <:+: line)
    (hm1 : ¬ bs ":`" <:+: line) (hm2 : ¬ bs ":'" <:+: line)
    (ha : line.get? (locationPtr line + 8).toNat = some a)
    (hna : a ∉ [104, 72, 122, 90, 47])
    (hb : line.get? (Index line (bs ":!") + 9).toNat = some b)
    (hnb : Index line (bs ":!") = -1 ∨ b ∉ [115, 83, 110, 78]) :
    ParseAPRSPacket lib line =
      .ret { Callsign := before 62 line, Destination := before 44 (after 62 line),
             PacketType := bs "Status Report",
             Status := line.drop (Index line (bs ":>") + 2).toNat } none := by
  have hmem : 62 ∈ before 44 line :=
    List.count_pos_iff.mp (by unfold wellFormedRoute header at hroute; omega)
  rw [Parse_wellFormed lib line hroute]
  unfold stages
  rw [statusStage_plain line _ hs hz, Res.bind_ok, gpggaStage_skip lib line _ hg, Res.bind_ok,
    micEStage_skip line _ hm1 hm2, Res.bind_ok,
    locationStage_skip lib line _ a b ha hna hb hnb]
  simp only [Res.finish, routePacket, header, before_before line hmem, after_before line hmem]

/-- C4 amended, at the line `A>B,C:>hello there` (both probes read byte 8, an `e`). -/
theorem C4_status_report_witness :
    wellFormedRoute (bs "A>B,C:>hello there") ∧
    ParseAPRSPacket goFloat (bs "A>B,C:>hello there") =
      .ret { Callsign := before 62 (bs "A>B,C:>hello there"),
             Destination := before 44 (after 62 (bs "A>B,C:>hello there")),
             PacketType := bs "Status Report",
             Status := (bs "A>B,C:>hello there").drop
               (Index (bs "A>B,C:>hello there") (bs ":>") + 2).toNat } none :=
  ⟨by decide,
    C4_status_report goFloat (bs "A>B,C:>hello there") 101 101 (by decide) (by decide)
      (by decide) (by decide) (by decide) (by decide) (by decide) (by decide) (by decide)
      (by decide)⟩

/-- C5: the claim that a weather field is the three bytes after its tag fails on the code:
the slices are taken at `Index(WeatherStr, tag)+28`, without adding `LocationPtr`.  On the
weather report below the marker is at 11, the gust field should be `005` and is `5W_`. -/
theorem C5_weather_fields_misplaced :
    ParseAPRSPacket goFloat
        (bs "N0CALL>APRS:@092345z4903.50N/07201.75W_220/004g005t077r000p000P000h50b09900") =
      .ret { Callsign := bs "N0CALL",
             Destination :=
               bs "APRS:@092345z4903.50N/07201.75W_220/004g005t077r000p000P000h50b09900",
             PacketType := bs "Weather Report", GPSTime := bs "0CALL>", Symbol := bs "/_",
             Latitude := bs "49.05833", Longitude := bs "72.02916",
             WindDirection := bs "220", WindSpeed := bs "004", WindGust := bs "5W_",
             WeatherTemp := bs "20/", RainHour := bs "04g", RainDay := bs "05t",
             RainMidnight := bs "77r", Humidity := bs "00p", Pressure := bs "000" } none := by
  decide

/-- C6: on the GPGGA line of the specification the function returns no error, PacketType
`GPGGA`, GPSTime `123456`, Latitude `48.11730` and Longitude `011.51666` (neither starts
with `-`) and Altitude `545.400000`. -/
theorem C6_gpgga_example :
    ∃ p, ParseAPRSPacket goFloat
        (bs "N0CALL>APRS:$GPGGA,123456,4807.038,N,01131.000,E,1,08,0.9,545.4,M,46.9,M,,*47") =
        .ret p none ∧
      p.PacketType = bs "GPGGA" ∧ p.GPSTime = bs "123456" ∧
      p.Latitude = bs "48.11730" ∧ p.Longitude = bs "011.51666" ∧
      p.Latitude.head? ≠ some 45 ∧ p.Longitude.head? ≠ some 45 ∧
      p.Altitude = bs "545.400000" :=
  ⟨{ Callsign := bs "N0CALL", Destination := bs "APRS:$GPGGA", PacketType := bs "GPGGA",
     GPSTime := bs "123456", Latitude := bs "48.11730", Longitude := bs "011.51666",
     Altitude := bs "545.400000" },
    by decide, by decide, by decide, by decide, by decide, by decide, by decide, by decide⟩

/-- C7: when the function returns a packet without error, Callsign is the text before the
first `>`, Destination the text between that `>` and the first comma (or the end of the
line); Callsign, `>` and Destination make up the header, the line is the header followed by
nothing or by a comma, and neither part contains `>` or a comma. -/
theorem C7_callsign_destination (lib : FloatLib) (line : Str) (p : APRSPacket)
    (h : ParseAPRSPacket lib line = .ret p none) :
    p.Callsign = before 62 line ∧ p.Destination = before 44 (after 62 line) ∧
    p.Callsign ++ 62 :: p.Destination = before 44 line ∧
    (∃ rest, line = p.Callsign ++ 62 :: p.Destination ++ rest ∧
      (rest = [] ∨ ∃ r, rest = 44 :: r)) ∧
    62 ∉ p.Callsign ∧ 44 ∉ p.Callsign ∧ 62 ∉ p.Destination ∧ 44 ∉ p.Destination := by
  rcases Parse_cases lib line with h1 | h1 | h1 | ⟨hw, h1⟩
  · rw [h1.2] at h; simp at h
  · rw [h1.2.2] at h; simp at h
  · rw [h1.2.2.2] at h; simp at h
  · rw [h1] at h
    have hr : sameRoute (routePacket line) p := by
      rcases Res.finish_All (stages_route lib line (routePacket line)) h with h2 | h2
      · exact h2
      · exact h2.2
    have hmem : 62 ∈ before 44 line :=
      List.count_pos_iff.mp (by unfold wellFormedRoute header at hw; omega)
    have hlen : (Split (before 44 line) 62).length = 2 := by
      rw [Split_length]; unfold wellFormedRoute header at hw; omega
    obtain ⟨_, hna, _⟩ := Split_two _ _ hlen
    have hc : p.Callsign = before 62 (before 44 line) := hr.1
    have hd : p.Destination = after 62 (before 44 line) := hr.2.1
    have hhead : p.Callsign ++ 62 :: p.Destination = before 44 line := by
      rw [hc, hd]; exact (before_after 62 _ hmem).symm
    obtain ⟨rest, hrest, hrest2⟩ := line_header_rest line
    refine ⟨by rw [hc, before_before line hmem], by rw [hd, after_before line hmem], hhead,
      ⟨rest, ?_, hrest2⟩, ?_, ?_, ?_, ?_⟩
    · have hl := hrest
      rw [← hhead] at hl
      simpa using hl
    · rw [hc]; exact before_not_mem 62 _
    · rw [hc]; exact fun hx => before_not_mem 44 line (before_subset 62 _ 44 hx)
    · rw [hd]; exact hna
    · rw [hd]; exact fun hx => before_not_mem 44 line (after_subset 62 _ 44 hx)

/-- C7 at the line `N0CALL>APRS,WIDE1-1:hello`, which is returned without error. -/
theorem C7_callsign_destination_witness :
    ParseAPRSPacket goFloat (bs "N0CALL>APRS,WIDE1-1:hello") =
      .ret { Callsign := bs "N0CALL", Destination := bs "APRS" } none ∧
    bs "N0CALL" = before 62 (bs "N0CALL>APRS,WIDE1-1:hello") ∧
    bs "APRS" = before 44 (after 62 (bs "N0CALL>APRS,WIDE1-1:hello")) :=
  ⟨by decide,
    (C7_callsign_destination goFloat (bs "N0CALL>APRS,WIDE1-1:hello")
      { Callsign := bs "N0CALL", Destination := bs "APRS" } (by decide)).1,
    (C7_callsign_destination goFloat (bs "N0CALL>APRS,WIDE1-1:hello")
      { Callsign := bs "N0CALL", Destination := bs "APRS" } (by decide)).2.1⟩

/-- C8: on a non-empty line that contains `>` and whose header does not contain exactly one
`>`, the function returns the route error (with an empty packet). -/
theorem C8_malformed_route (lib : FloatLib) (line : Str) (hne : line ≠ []) (hgt : 62 ∈ line)
    (h : (before 44 line).count 62 ≠ 1) :
    ParseAPRSPacket lib line = .ret {} (some errRoute) :=
  Parse_malformed lib line hne hgt h

/-- C8 at a header with two `>` and at a header with none. -/
theorem C8_malformed_route_witness :
    (before 44 (bs "A>B>C,WIDE:hi")).count 62 ≠ 1 ∧
    (before 44 (bs "AB,C>D:hi")).count 62 ≠ 1 ∧
    ParseAPRSPacket goFloat (bs "A>B>C,WIDE:hi") = .ret {} (some errRoute) ∧
    ParseAPRSPacket goFloat (bs "AB,C>D:hi") = .ret {} (some errRoute) :=
  ⟨by decide, by decide,
    C8_malformed_route goFloat (bs "A>B>C,WIDE:hi") (by decide) (by decide) (by decide),
    C8_malformed_route goFloat (bs "AB,C>D:hi") (by decide) (by decide) (by decide)⟩

/-- C9: on a non-empty line without `>` the function returns the unsupported-packet error
(with an empty packet), and so no other error. -/
theorem C9_no_route_delimiter (lib : FloatLib) (line : Str) (hne : line ≠ [])
    (hgt : 62 ∉ line) :
    ParseAPRSPacket lib line = .ret {} (some errUnsupported) :=
  Parse_no_gt lib line hne hgt

/-- C9 at the line `N0CALL,APRS:hello`. -/
theorem C9_no_route_delimiter_witness :
    bs "N0CALL,APRS:hello" ≠ [] ∧ 62 ∉ bs "N0CALL,APRS:hello" ∧
    ParseAPRSPacket goFloat (bs "N0CALL,APRS:hello") = .ret {} (some errUnsupported) :=
  ⟨by decide, by decide,
    C9_no_route_delimiter goFloat (bs "N0CALL,APRS:hello") (by decide) (by decide)⟩

/-- C10: the function returns the blank-line error if and only if the line is empty. -/
theorem C10_blank_line (lib : FloatLib) (line : Str) :
    (∃ p, ParseAPRSPacket lib line = .ret p (some errBlank)) ↔ line = [] := by
  constructor
  · rintro ⟨p, hp⟩
    rcases Parse_cases lib line with h | h | h | ⟨_, h⟩
    · exact h.1
    · rw [h.2.2] at hp
      simp only [Outcome.ret.injEq, Option.some.injEq] at hp
      exact absurd hp.2 (by decide)
    · rw [h.2.2.2] at hp
      simp only [Outcome.ret.injEq, Option.some.injEq] at hp
      exact absurd hp.2 (by decide)
    · rw [h] at hp
      rcases Res.finish_All (stages_errors lib line (routePacket line)) hp with h2 | h2
      · exact absurd rfl (isStageError_ne_blank _ h2)
      · exact absurd h2.1 (by simp)
  · rintro rfl
    exact ⟨{}, Parse_blank lib⟩

/-! ## Successful runs, stage by stage -/

theorem Res.bind_fault {α β : Type} (k : α → Res β) : ((Res.fault : Res α) >>= k) = Res.fault :=
  rfl

theorem Res.All_ok_inv {α : Type} {Q : APRSPacket → Option String → Prop} {R : α → Prop}
    {r : Res α} (h : Res.All Q R r) {a : α} (hr : r = .ok a) : R a := by
  subst hr; exact h

theorem slice_eq_some (s : Str) (lo hi : Int) (r : Str) (h : slice s lo hi = some r) :
    0 ≤ lo ∧ lo ≤ hi ∧ hi ≤ len s ∧ r = (s.drop lo.toNat).take (hi.toNat - lo.toNat) := by
  unfold slice at h
  split at h
  · rename_i hc
    simp only [Option.some.injEq] at h
    exact ⟨hc.1, hc.2.1, hc.2.2, h.symm⟩
  · exact absurd h (by simp)

/-- A run of the stages that ends without error went through all four of them. -/
theorem stages_success (lib : FloatLib) (input : Str) (p0 p : APRSPacket)
    (h : (stages lib input p0).finish = .ret p none) :
    ∃ a b c, statusStage input p0 = .ok a ∧ gpggaStage lib input a = .ok b ∧
      micEStage input b = .ok c ∧ locationStage lib input c = .ok p := by
  unfold stages at h
  have e1 := statusStage_errors input p0
  cases h1 : statusStage input p0 with
  | fault => rw [h1] at h; exact absurd h (by simp [Res.bind_fault, Res.finish])
  | ret q e =>
    rw [h1] at h e1
    change Outcome.ret q e = _ at h
    simp only [Outcome.ret.injEq] at h
    rw [h.2] at e1
    exact absurd e1 not_isStageError_none
  | ok a =>
    rw [h1, Res.bind_ok] at h
    have e2 := gpggaStage_errors lib input a
    cases h2 : gpggaStage lib input a with
    | fault => rw [h2] at h; exact absurd h (by simp [Res.bind_fault, Res.finish])
    | ret q e =>
      rw [h2] at h e2
      change Outcome.ret q e = _ at h
      simp only [Outcome.ret.injEq] at h
      rw [h.2] at e2
      exact absurd e2 not_isStageError_none
    | ok b =>
      rw [h2, Res.bind_ok] at h
      have e3 := micEStage_errors input b
      cases h3 : micEStage input b with
      | fault => rw [h3] at h; exact absurd h (by simp [Res.bind_fault, Res.finish])
      | ret q e =>
        rw [h3] at h e3
        change Outcome.ret q e = _ at h
        simp only [Outcome.ret.injEq] at h
        rw [h.2] at e3
        exact absurd e3 not_isStageError_none
      | ok c =>
        rw [h3, Res.bind_ok] at h
        have e4 := locationStage_errors lib input c
        cases h4 : locationStage lib input c with
        | fault => rw [h4] at h; exact absurd h (by simp [Res.finish])
        | ret q e =>
          rw [h4] at h e4
          change Outcome.ret q e = _ at h
          simp only [Outcome.ret.injEq] at h
          rw [h.2] at e4
          exact absurd e4 not_isStageError_none
        | ok d =>
          rw [h4] at h
          change Outcome.ret d none = _ at h
          simp only [Outcome.ret.injEq, and_true] at h
          exact ⟨a, b, c, rfl, h2, h3, by rw [h4, h]⟩

/-- A return without error comes from a line with a well-formed route, after all four stages
run on the route packet. -/
theorem Parse_success (lib : FloatLib) (line : Str) (p : APRSPacket)
    (h : ParseAPRSPacket lib line = .ret p none) :
    wellFormedRoute line ∧ ∃ a b c, statusStage line (routePacket line) = .ok a ∧
      gpggaStage lib line a = .ok b ∧ micEStage line b = .ok c ∧
      locationStage lib line c = .ok p := by
  rcases Parse_cases lib line with h1 | h1 | h1 | ⟨hw, h1⟩
  · rw [h1.2] at h; simp at h
  · rw [h1.2.2] at h; simp at h
  · rw [h1.2.2.2] at h; simp at h
  · rw [h1] at h
    exact ⟨hw, stages_success lib line _ p h⟩

/-- Every packet the function returns has the route fields of the route split, or is empty. -/
theorem Parse_ret_route (lib : FloatLib) (line : Str) (p : APRSPacket) (e : Option String)
    (h : ParseAPRSPacket lib line = .ret p e) :
    p = {} ∨ sameRoute (routePacket line) p := by
  rcases Parse_cases lib line with h1 | h1 | h1 | ⟨hw, h1⟩
  · rw [h1.2] at h; simp only [Outcome.ret.injEq] at h; exact Or.inl h.1.symm
  · rw [h1.2.2] at h; simp only [Outcome.ret.injEq] at h; exact Or.inl h.1.symm
  · rw [h1.2.2.2] at h; simp only [Outcome.ret.injEq] at h; exact Or.inl h.1.symm
  · rw [h1] at h
    rcases Res.finish_All (stages_route lib line (routePacket line)) h with h2 | h2
    · exact Or.inr h2
    · exact Or.inr h2.2

theorem micEStage_ok_inv (input : Str) (p q : APRSPacket) (h : micEStage input p = .ok q) :
    q = p ∧ ¬ bs ":`" <:+: input ∧ ¬ bs ":'" <:+: input := by
  by_cases hm : bs ":`" <:+: input ∨ bs ":'" <:+: input
  · rw [micEStage_hit input p hm] at h
    exact absurd h (by simp)
  · have h1 : ¬ bs ":`" <:+: input := fun x => hm (Or.inl x)
    have h2 : ¬ bs ":'" <:+: input := fun x => hm (Or.inr x)
    rw [micEStage_skip input p h1 h2] at h
    simp only [Res.ok.injEq] at h
    exact ⟨h.symm, h1, h2⟩

theorem statusStage_fields (input : Str) (p : APRSPacket) :
    Res.All (fun _ _ => True)
      (fun q => q.Altitude = p.Altitude ∧
        ((¬ statusTest input ∧ q = p) ∨ (statusTest input ∧ q.PacketType = bs "Status Report")))
      (statusStage input p) := by
  unfold statusStage statusTest
  simp only [Res.All_ite, Res.All_bind, Res.All_orFault, Res.All_pure, Res.All_ret,
    Res.All_parseFloatOr]
  simp +contextual

theorem weatherStage_fields (input : Str) (L : Int) (p : APRSPacket) :
    Res.All (fun _ _ => True)
      (fun q => q.Status = p.Status ∧ q.Altitude = p.Altitude ∧ q.GPSTime = p.GPSTime ∧
        q.Latitude = p.Latitude ∧ q.Longitude = p.Longitude ∧ q.Symbol = p.Symbol ∧
        (q.PacketType = p.PacketType ∨ q.PacketType = bs "Weather Report"))
      (weatherStage input L p) := by
  unfold weatherStage
  simp only [Res.All_ite, Res.All_bind, Res.All_orFault, Res.All_pure, Res.All_ret,
    Res.All_parseFloatOr]
  simp

theorem locationStage_fields (lib : FloatLib) (input : Str) (c : APRSPacket) :
    Res.All (fun _ _ => True)
      (fun q => q.Status = c.Status ∧ q.Altitude = c.Altitude ∧
        (q = c ∨ ((q.PacketType = bs "Location" ∨ q.PacketType = bs "Weather Report") ∧
          (Index input (bs ":!") = -1 →
            slice input (Index input (bs ":!") + 2) (Index input (bs ":!") + 8) =
              some q.GPSTime))))
      (locationStage lib input c) := by
  unfold locationStage
  simp only [Res.All_ite, Res.All_bind, Res.All_orFault, Res.All_pure, Res.All_ret,
    Res.All_parseFloatOr]
  intro s1 hs1 s2 hs2
  refine ⟨?_, ?_⟩
  · intro hc t ht a _ a2 _ lm _
    refine ⟨fun _ => trivial, ?_⟩
    intro x _ ld _ lf _ he _ lom _
    refine ⟨fun _ => trivial, ?_⟩
    intro y _ lod _ lof _ he2 _
    refine Res.All_mono (weatherStage_fields _ _ _) (fun _ _ _ => trivial) ?_
    intro q hq
    simp only at hq
    obtain ⟨h1, h2, h3, _, _, _, h7⟩ := hq
    refine ⟨h1, h2, Or.inr ⟨?_, ?_⟩⟩
    · rcases h7 with e | e
      · exact Or.inl e
      · exact Or.inr e
    · intro hT
      have hA : locationPtr input ≠ -1 ∧ (s1 = bs "H" ∨ s1 = bs "Z" ∨ s1 = bs "/") := by
        rcases hc with hA | hB
        · exact hA
        · exact absurd hT hB.1
      rw [if_pos hA] at ht
      rw [h3, ht]
  · intro _; simp

theorem slice_tail (s : Str) (lo hi : Int) (r : Str) (h : slice s lo hi = some r)
    (hhi : hi = len s) : r = s.drop lo.toNat ∧ lo.toNat ≤ s.length := by
  obtain ⟨h0, h1, h2, hr⟩ := slice_eq_some s lo hi r h
  subst hhi
  unfold len at h1 hr
  refine ⟨?_, by omega⟩
  rw [hr, List.take_of_length_le]
  simp only [List.length_drop]
  omega

theorem slice_head (s : Str) (n : Nat) (r : Str) (h : slice s 0 (n : Int) = some r) :
    r = s.take n ∧ n ≤ s.length := by
  obtain ⟨_, _, h2, hr⟩ := slice_eq_some s 0 n r h
  unfold len at h2
  refine ⟨?_, by omega⟩
  rw [hr]
  simp

theorem slice_frac (s : Str) (r : Str) (h : slice s 1 (len s - 1) = some r) :
    r = fractionDigits s := by
  obtain ⟨_, h1, _, hr⟩ := slice_eq_some s 1 _ r h
  unfold len at h1 hr
  rw [hr]
  unfold fractionDigits
  congr 1
  omega

theorem unsignedCoordinate_of_slices (lib : FloatLib) (n : Nat) (field d m fr : Str) (x : lib.F)
    (hm : slice field (n : Int) ((n : Int) + len field - (n : Int)) = some m)
    (hx : lib.ParseFloat m = some x)
    (hd : slice field 0 (n : Int) = some d)
    (hfr : slice (lib.Sprintf_f (lib.div60 x)) 1 (len (lib.Sprintf_f (lib.div60 x)) - 1) =
      some fr) :
    unsignedCoordinate lib n field = some (d ++ fr) := by
  obtain ⟨hm1, _⟩ := slice_tail field _ _ m hm (by omega)
  obtain ⟨hd1, hd2⟩ := slice_head field n d hd
  have hfr1 := slice_frac _ fr hfr
  simp only [Int.toNat_ofNat] at hm1
  unfold unsignedCoordinate
  rw [if_pos hd2, ← hm1, hx, hd1, hfr1]
  rfl

theorem negateIf_eq (c : Prop) [Decidable c] (s : Str) :
    negateIf c s = if c then 45 :: s else s := rfl

theorem gpggaStage_fields (lib : FloatLib) (input : Str) (p : APRSPacket) :
    Res.All (fun _ _ => True)
      (fun q => q.Status = p.Status ∧
        ((¬ bs ":$GPGGA," <:+: input ∧ q = p) ∨
         (bs ":$GPGGA," <:+: input ∧ q.PacketType = bs "GPGGA" ∧ gpggaExtracted lib input q)))
      (gpggaStage lib input p) := by
  unfold gpggaStage
  simp only [Res.All_ite, Res.All_bind, Res.All_orFault, Res.All_pure, Res.All_ret,
    Res.All_parseFloatOr]
  refine ⟨?_, ?_⟩
  · intro hc raw hraw
    have hmark : bs ":$GPGGA," <:+: input := (Contains_iff _ _).mp hc
    obtain ⟨hraw1, _⟩ := slice_tail input _ _ raw hraw (by omega)
    refine ⟨fun _ => trivial, ?_⟩
    intro _ f1 hf1 f2 hf2 m2 hm2
    refine ⟨fun _ => trivial, ?_⟩
    intro x hx d2 hd2 fr2 hfr2 f3 hf3 f4 hf4 m4 hm4
    refine ⟨fun _ => trivial, ?_⟩
    intro y hy d4 hd4 fr4 hfr4 f3b hf3b f9 hf9
    refine ⟨fun _ => trivial, ?_⟩
    intro z hz
    have hU := unsignedCoordinate_of_slices lib 2 f2 d2 m2 fr2 x hm2 hx hd2 hfr2
    have hV := unsignedCoordinate_of_slices lib 3 f4 d4 m4 fr4 y hm4 hy hd4 hfr4
    have h33 : f3b = f3 := by
      rw [hf3] at hf3b
      exact (Option.some.inj hf3b).symm
    subst h33
    subst hraw1
    refine ⟨?_, Or.inr ⟨hmark, ?_, f1, f2, f3b, f4, f9, _, _, z, hf1, hf2, hf3, hf4, hf9, hU, hV,
      hz, ?_, ?_, ?_, ?_⟩⟩ <;> trivial
  · intro hc
    have hmark : ¬ bs ":$GPGGA," <:+: input := fun h => hc ((Contains_iff _ _).mpr h)
    refine ⟨?_, Or.inl ⟨hmark, ?_⟩⟩ <;> trivial

/-- A successful run, seen from the Location stage: the packet `b` that enters it carries the
route, a status only when the Status Report test holds, an altitude and the GPGGA values only
when the line contains `:$GPGGA,`, and the PacketType of the last of these two stages; the
line holds no Mic-E marker. -/
theorem Parse_success_early (lib : FloatLib) (line : Str) (p : APRSPacket)
    (h : ParseAPRSPacket lib line = .ret p none) :
    wellFormedRoute line ∧ ¬ bs ":`" <:+: line ∧ ¬ bs ":'" <:+: line ∧
    ∃ b, locationStage lib line b = .ok p ∧ sameRoute (routePacket line) b ∧
      (b.Status ≠ [] → statusTest line) ∧
      (b.Altitude ≠ [] → bs ":$GPGGA," <:+: line) ∧
      b.PacketType = earlyType line ∧
      (bs ":$GPGGA," <:+: line → gpggaExtracted lib line b) := by
  obtain ⟨hw, a, b, c, h1, h2, h3, h4⟩ := Parse_success lib line p h
  obtain ⟨hcb, hm1, hm2⟩ := micEStage_ok_inv line b c h3
  subst hcb
  have ra := Res.All_ok_inv (statusStage_route line (routePacket line)) h1
  have rb := Res.All_ok_inv (gpggaStage_route lib line a) h2
  obtain ⟨sa1, sa2⟩ := Res.All_ok_inv (statusStage_fields line (routePacket line)) h1
  obtain ⟨sb1, sb2⟩ := Res.All_ok_inv (gpggaStage_fields lib line a) h2
  refine ⟨hw, hm1, hm2, c, h4, sameRoute_trans ra rb, ?_, ?_, ?_, ?_⟩
  · intro hs
    rcases sa2 with ⟨_, e⟩ | ⟨t, _⟩
    · rw [sb1, e] at hs; exact absurd rfl hs
    · exact t
  · intro ha
    rcases sb2 with ⟨_, e⟩ | ⟨t, _⟩
    · rw [e, sa1] at ha; exact absurd rfl ha
    · exact t
  · unfold earlyType
    rcases sb2 with ⟨hn, e⟩ | ⟨t, e, _⟩
    · rw [if_neg hn, e]
      rcases sa2 with ⟨hs, e2⟩ | ⟨hs, e2⟩
      · rw [if_neg hs, e2]; rfl
      · rw [if_pos hs, e2]
    · rw [if_pos t, e]
  · intro hg
    rcases sb2 with ⟨hn, _⟩ | ⟨_, _, e⟩
    · exact absurd hg hn
    · exact e

theorem earlyType_ne_location (line : Str) :
    earlyType line ≠ bs "Location" ∧ earlyType line ≠ bs "Weather Report" := by
  unfold earlyType
  split_ifs <;> decide

theorem before_eq_nil_iff (c : Nat) (s : Str) (h : c ∈ s) :
    before c s = [] ↔ s.head? = some c := by
  cases s with
  | nil => simp at h
  | cons x xs =>
    by_cases hx : x = c
    · simp [before, hx]
    · simp [before, hx]

theorem slice_none (s : Str) (lo hi : Int) (h : len s < hi) : slice s lo hi = none := by
  unfold slice
  rw [if_neg (by omega)]

theorem gpgga_not_in_short (line : Str) (h8 : line.length ≤ 8) (hw : wellFormedRoute line) :
    ¬ bs ":$GPGGA," <:+: line := by
  rintro ⟨a, b, hab⟩
  have hl : (a ++ bs ":$GPGGA," ++ b).length = line.length := by rw [hab]
  have e8 : (bs ":$GPGGA,").length = 8 := rfl
  simp only [List.length_append, e8] at hl
  have ha : a = [] := List.length_eq_zero.mp (by omega)
  have hb : b = [] := List.length_eq_zero.mp (by omega)
  subst ha hb
  simp only [List.nil_append, List.append_nil] at hab
  subst hab
  revert hw
  decide

/-! ## The GPGGA stage under a Mic-E marker -/

theorem gpggaStage_gpggaErrors (lib : FloatLib) (input : Str) (p : APRSPacket) :
    Res.All (fun _ e => ∃ m, m ∈ gpggaErrors ∧ e = some m) (fun _ => True)
      (gpggaStage lib input p) := by
  unfold gpggaStage
  simp only [Res.All_ite, Res.All_bind, Res.All_orFault, Res.All_pure, Res.All_ret,
    Res.All_parseFloatOr]
  simp [gpggaErrors]

theorem parseFloatOr_some (lib : FloatLib) (s : Str) (p : APRSPacket) (msg : String)
    (x : lib.F) (h : lib.ParseFloat s = some x) : parseFloatOr lib s p msg = Res.ok x := by
  unfold parseFloatOr
  rw [h]

theorem slice_frac_some (s : Str) (h : 2 ≤ s.length) :
    slice s 1 (len s - 1) = some (fractionDigits s) := by
  rw [slice_of_bounds s 1 (len s - 1) (by omega) (by unfold len; omega) (by omega)]
  unfold fractionDigits len
  congr 2
  omega

theorem slice_drop_some (s : Str) (n : Nat) (h : n ≤ s.length) :
    slice s (n : Int) ((n : Int) + len s - (n : Int)) = some (s.drop n) := by
  rw [slice_of_bounds s _ _ (by omega) (by unfold len; omega) (by omega)]
  simp only [Int.toNat_ofNat]
  rw [List.take_of_length_le]
  simp only [List.length_drop]
  unfold len
  omega

theorem slice_take_some (s : Str) (n : Nat) (h : n ≤ s.length) :
    slice s 0 (n : Int) = some (s.take n) := by
  rw [slice_of_bounds s 0 _ (by omega) (by omega) (by unfold len; omega)]
  simp

theorem unsignedCoordinate_some (lib : FloatLib) (n : Nat) (field U : Str)
    (h : unsignedCoordinate lib n field = some U) :
    n ≤ field.length ∧ ∃ x, lib.ParseFloat (field.drop n) = some x := by
  unfold unsignedCoordinate at h
  split at h
  · rename_i hn
    refine ⟨hn, ?_⟩
    cases hx : lib.ParseFloat (field.drop n) with
    | none => rw [hx] at h; simp at h
    | some x => exact ⟨x, rfl⟩
  · exact absurd h (by simp)

theorem bind_isSome {α β : Type} (o : Option α) (f : α → Option β)
    (h : (o.bind f).isSome = true) : ∃ a b, o = some a ∧ f a = some b := by
  cases o with
  | none => simp at h
  | some a =>
    simp only [Option.some_bind] at h
    obtain ⟨b, hb⟩ := Option.isSome_iff_exists.mp h
    exact ⟨a, b, rfl, hb⟩

theorem get?_of_lt (l : List Str) (i j : Nat) (x : Str) (h : l.get? j = some x) (hij : i ≤ j) :
    ∃ y, l.get? i = some y := by
  have hj : j < l.length := by
    by_contra hc
    rw [List.get?_eq_none.mpr (by omega)] at h
    exact absurd h (by simp)
  exact ⟨l.get ⟨i, by omega⟩, List.get?_eq_get (by omega)⟩

/-- When the line contains the marker and the GPGGA extractor succeeds, the GPGGA stage falls
through to the next statement. -/
theorem gpggaStage_ok_of_succeeds (lib : FloatLib) (input : Str) (p : APRSPacket)
    (hg : bs ":$GPGGA," <:+: input) (hs : gpggaSucceeds lib input) :
    ∃ b, gpggaStage lib input p = .ok b := by
  obtain ⟨s2, s4, s9⟩ := hs
  obtain ⟨f2, U, hf2, hU⟩ := bind_isSome _ _ s2
  obtain ⟨f4, V, hf4, hV⟩ := bind_isSome _ _ s4
  obtain ⟨f9, z, hf9, hz⟩ := bind_isSome _ _ s9
  obtain ⟨f1, hf1⟩ := get?_of_lt _ 1 9 f9 hf9 (by omega)
  obtain ⟨f3, hf3⟩ := get?_of_lt _ 3 9 f9 hf9 (by omega)
  obtain ⟨h2len, x, hx⟩ := unsignedCoordinate_some lib 2 f2 U hU
  obtain ⟨h4len, y, hy⟩ := unsignedCoordinate_some lib 3 f4 V hV
  have hlen : ¬ (gpggaFields input).length < 9 := by
    intro hc
    rw [List.get?_eq_none.mpr (by omega)] at hf9
    exact absurd hf9 (by simp)
  have hidx := Index_bound input (bs ":$GPGGA,") ((Index_ne_neg_one_iff _ _).mpr hg)
  have hraw : slice input (Index input (bs ":$GPGGA,"))
      (Index input (bs ":$GPGGA,") + (len input - Index input (bs ":$GPGGA,"))) =
      some (input.drop (Index input (bs ":$GPGGA,")).toNat) := by
    have e8 : len (bs ":$GPGGA,") = 8 := rfl
    rw [e8] at hidx
    rw [slice_of_bounds _ _ _ (by omega) (by omega) (by omega), List.take_of_length_le]
    simp only [List.length_drop]
    unfold len
    omega
  have hfx := slice_frac_some (lib.Sprintf_f (lib.div60 x))
    (by have := lib.Sprintf_f_len (lib.div60 x); omega)
  have hfy := slice_frac_some (lib.Sprintf_f (lib.div60 y))
    (by have := lib.Sprintf_f_len (lib.div60 y); omega)
  have hm2 := slice_drop_some f2 2 h2len
  have hd2 := slice_take_some f2 2 h2len
  have hm4 := slice_drop_some f4 3 h4len
  have hd4 := slice_take_some f4 3 h4len
  unfold gpggaFields at hf1 hf2 hf3 hf4 hf9 hlen
  unfold gpggaStage
  rw [if_pos ((Contains_iff _ _).mpr hg)]
  simp only [hraw, orFault_some, Res.bind_ok, if_neg hlen, hf1, hf2, hf3, hf4, hf9]
  simp only [Nat.cast_ofNat] at hm2 hd2 hm4 hd4
  simp only [hm2, hd2, hm4, hd4, orFault_some, Res.bind_ok,
    parseFloatOr_some lib _ _ _ x hx, parseFloatOr_some lib _ _ _ y hy,
    parseFloatOr_some lib _ _ _ z hz, hfx, hfy, Res.pure_eq]
  exact ⟨_, rfl⟩

theorem gpggaSucceeds_of_extracted (lib : FloatLib) (line : Str) (q : APRSPacket)
    (h : gpggaExtracted lib line q) : gpggaSucceeds lib line := by
  obtain ⟨_, f2, _, f4, f9, U, V, z, _, h2, _, h4, h9, hU, hV, hz, _⟩ := h
  refine ⟨?_, ?_, ?_⟩
  · rw [h2]; simp [hU]
  · rw [h4]; simp [hV]
  · rw [h9]; simp [hz]

/-- On a line with a Mic-E marker the GPGGA stage decides: the Mic-E error is returned exactly
when that stage falls through. -/
theorem stages_micE_iff (lib : FloatLib) (input : Str) (p0 : APRSPacket)
    (hm : bs ":`" <:+: input ∨ bs ":'" <:+: input) :
    (∃ p, (stages lib input p0).finish = .ret p (some errMicE)) ↔
      (¬ bs ":$GPGGA," <:+: input ∨ gpggaSucceeds lib input) := by
  obtain ⟨a, ha⟩ := statusStage_ok input p0
  unfold stages
  rw [ha, Res.bind_ok]
  constructor
  · rintro ⟨p, hp⟩
    have e2 := gpggaStage_gpggaErrors lib input a
    have f2 := gpggaStage_fields lib input a
    cases h2 : gpggaStage lib input a with
    | fault => rw [h2] at hp; exact absurd hp (by simp [Res.bind_fault, Res.finish])
    | ret q e =>
      rw [h2] at hp e2
      change Outcome.ret q e = _ at hp
      simp only [Outcome.ret.injEq] at hp
      obtain ⟨m, hmem, he⟩ := e2
      rw [hp.2] at he
      simp only [Option.some.injEq] at he
      subst he
      exact absurd hmem (by decide)
    | ok b =>
      rw [h2] at f2
      rcases f2.2 with ⟨hn, _⟩ | ⟨_, _, hx⟩
      · exact Or.inl hn
      · exact Or.inr (gpggaSucceeds_of_extracted lib input b hx)
  · intro h
    have hb : ∃ b, gpggaStage lib input a = .ok b := by
      by_cases hg : bs ":$GPGGA," <:+: input
      · rcases h with hn | hs
        · exact absurd hg hn
        · exact gpggaStage_ok_of_succeeds lib input a hg hs
      · exact ⟨a, gpggaStage_skip lib input a hg⟩
    obtain ⟨b, hb⟩ := hb
    rw [hb, Res.bind_ok, micEStage_hit input b hm, Res.bind_ret]
    exact ⟨_, rfl⟩

/-! ## The claims, continued -/

/-- C2, the claim as stated fails on three lines that hold a Mic-E marker: without `>` the
function returns the unsupported-packet error, with two `>` in the header the route error,
and with a `:$GPGGA,` sentence of three fields the not-enough-data error of the GPGGA
extractor; none of them is the Mic-E error. -/
theorem C2_counterexample :
    (bs ":`" <:+: bs "N0CALL:`abc" ∧
      ¬ ∃ p, ParseAPRSPacket goFloat (bs "N0CALL:`abc") = .ret p (some errMicE)) ∧
    (bs ":`" <:+: bs "A>B>C:`x" ∧
      ParseAPRSPacket goFloat (bs "A>B>C:`x") = .ret {} (some errRoute)) ∧
    (bs ":`" <:+: bs "A>B:$GPGGA,1,2:`" ∧
      ParseAPRSPacket goFloat (bs "A>B:$GPGGA,1,2:`") =
        .ret { Callsign := bs "A", Destination := bs "B:$GPGGA", PacketType := bs "GPGGA" }
          (some errGPGGAFields)) ∧
    errRoute ≠ errMicE ∧ errGPGGAFields ≠ errMicE := by
  refine ⟨⟨by decide, ?_⟩, ⟨by decide, by decide⟩, ⟨by decide, by decide⟩, by decide,
    by decide⟩
  have h : ParseAPRSPacket goFloat (bs "N0CALL:`abc") = .ret {} (some errUnsupported) := by
    decide
  rintro ⟨p, hp⟩
  rw [h] at hp
  revert hp
  simp only [Outcome.ret.injEq, Option.some.injEq, imp_false, not_and]
  intro _
  decide

/-- C2 amended: a line that contains a Mic-E marker is never decoded without an error, and
the function returns the Mic-E error exactly when the route is well formed and the GPGGA
stage falls through, that is when the line does not contain `:$GPGGA,` or the GPGGA extractor
succeeds; whatever the Status Report and GPGGA stages classified before. -/
theorem C2_micE_marker_aborts (lib : FloatLib) (line : Str)
    (hm : bs ":`" <:+: line ∨ bs ":'" <:+: line) :
    (∀ p, ParseAPRSPacket lib line ≠ .ret p none) ∧
    ((∃ p, ParseAPRSPacket lib line = .ret p (some errMicE)) ↔
      (wellFormedRoute line ∧ (¬ bs ":$GPGGA," <:+: line ∨ gpggaSucceeds lib line))) := by
  constructor
  · intro p hp
    rcases Parse_cases lib line with h | h | h | h
    · rw [h.2] at hp; simp at hp
    · rw [h.2.2] at hp; simp at hp
    · rw [h.2.2.2] at hp; simp at hp
    · rw [h.2] at hp
      rcases Res.finish_All (stages_micE lib line _ hm) hp with h1 | h1
      · exact not_isStageError_none h1
      · exact h1.2
  · constructor
    · rintro ⟨p, hp⟩
      rcases Parse_cases lib line with h | h | h | ⟨hw, h⟩
      · rw [h.2] at hp
        simp only [Outcome.ret.injEq, Option.some.injEq] at hp
        exact absurd hp.2 (by decide)
      · rw [h.2.2] at hp
        simp only [Outcome.ret.injEq, Option.some.injEq] at hp
        exact absurd hp.2 (by decide)
      · rw [h.2.2.2] at hp
        simp only [Outcome.ret.injEq, Option.some.injEq] at hp
        exact absurd hp.2 (by decide)
      · rw [h] at hp
        exact ⟨hw, (stages_micE_iff lib line _ hm).mp ⟨p, hp⟩⟩
    · rintro ⟨hw, hg⟩
      rw [Parse_wellFormed lib line hw]
      exact (stages_micE_iff lib line _ hm).mpr hg

/-- C2 amended, at a line whose GPGGA sentence is extracted before the Mic-E test and at a
line without GPGGA sentence: both end in the Mic-E error. -/
theorem C2_micE_marker_aborts_witness :
    (bs ":$GPGGA," <:+: bs "A>B:$GPGGA,123456,4807.038,S,01131.000,W,1,08,0.9,545.4,:`" ∧
      gpggaSucceeds goFloat
        (bs "A>B:$GPGGA,123456,4807.038,S,01131.000,W,1,08,0.9,545.4,:`") ∧
      ∃ p, ParseAPRSPacket goFloat
        (bs "A>B:$GPGGA,123456,4807.038,S,01131.000,W,1,08,0.9,545.4,:`") =
          .ret p (some errMicE)) ∧
    (∀ p, ParseAPRSPacket goFloat (bs "N0CALL>APRS:`abc") ≠ .ret p none) ∧
    ∃ p, ParseAPRSPacket goFloat (bs "N0CALL>APRS:`abc") = .ret p (some errMicE) :=
  ⟨⟨by decide, by decide,
      (C2_micE_marker_aborts goFloat
        (bs "A>B:$GPGGA,123456,4807.038,S,01131.000,W,1,08,0.9,545.4,:`")
        (by decide)).2.mpr ⟨by decide, Or.inr (by decide)⟩⟩,
    (C2_micE_marker_aborts goFloat (bs "N0CALL>APRS:`abc") (by decide)).1,
    (C2_micE_marker_aborts goFloat (bs "N0CALL>APRS:`abc") (by decide)).2.mpr
      ⟨by decide, Or.inl (by decide)⟩⟩

/-- C11, the claim as stated fails: the line below passes the Status Report test and holds
`:$GPGGA,`, so it is returned without error with a non-empty Status and PacketType
`GPGGA`. -/
theorem C11_counterexample :
    ∃ p, ParseAPRSPacket goFloat
        (bs "A>B,C:>hi:$GPGGA,123456,4807.038,N,01131.000,E,1,08,0.9,545.4") = .ret p none ∧
      p.Status ≠ [] ∧ p.PacketType ≠ bs "Status Report" :=
  ⟨{ Callsign := bs "A", Destination := bs "B", PacketType := bs "GPGGA",
     GPSTime := bs "123456", Latitude := bs "48.11730", Longitude := bs "011.51666",
     Altitude := bs "545.400000",
     Status := bs "hi:$GPGGA,123456,4807.038,N,01131.000,E,1,08,0.9,545.4" },
    by decide, by decide, by decide⟩

/-- C11 amended: when the function returns a packet without error, Status is non-empty only
if the Status Report test held (the first `:>` comes after the first `>`), Altitude is
non-empty only if the line contains `:$GPGGA,`, and PacketType is that of the last stage that
classified the line: `Location` or `Weather Report`, else `GPGGA` when the line contains
`:$GPGGA,`, else `Status Report` when the Status Report test held, else unset. -/
theorem C11_fields_of_earlier_stages (lib : FloatLib) (line : Str) (p : APRSPacket)
    (h : ParseAPRSPacket lib line = .ret p none) :
    (p.Status ≠ [] → statusTest line) ∧
    (p.Altitude ≠ [] → bs ":$GPGGA," <:+: line) ∧
    (p.PacketType = bs "Location" ∨ p.PacketType = bs "Weather Report" ∨
      p.PacketType =
        if bs ":$GPGGA," <:+: line then bs "GPGGA"
        else if statusTest line then bs "Status Report" else []) := by
  obtain ⟨_, _, _, b, hl, _, hs, ha, ht, _⟩ := Parse_success_early lib line p h
  obtain ⟨l1, l2, l3⟩ := Res.All_ok_inv (locationStage_fields lib line b) hl
  refine ⟨fun hp => hs (by rw [← l1]; exact hp), fun hp => ha (by rw [← l2]; exact hp), ?_⟩
  rcases l3 with e | ⟨e | e, _⟩
  · right; right
    rw [e, ht]
    rfl
  · exact Or.inl e
  · exact Or.inr (Or.inl e)

/-- C11 amended, at the line of the counterexample. -/
theorem C11_fields_of_earlier_stages_witness :
    statusTest (bs "A>B,C:>hi:$GPGGA,123456,4807.038,N,01131.000,E,1,08,0.9,545.4") ∧
    bs ":$GPGGA," <:+: bs "A>B,C:>hi:$GPGGA,123456,4807.038,N,01131.000,E,1,08,0.9,545.4" :=
  ⟨(C11_fields_of_earlier_stages goFloat
      (bs "A>B,C:>hi:$GPGGA,123456,4807.038,N,01131.000,E,1,08,0.9,545.4")
      { Callsign := bs "A", Destination := bs "B", PacketType := bs "GPGGA",
        GPSTime := bs "123456", Latitude := bs "48.11730", Longitude := bs "011.51666",
        Altitude := bs "545.400000",
        Status := bs "hi:$GPGGA,123456,4807.038,N,01131.000,E,1,08,0.9,545.4" }
      (by decide)).1 (by decide),
   (C11_fields_of_earlier_stages goFloat
      (bs "A>B,C:>hi:$GPGGA,123456,4807.038,N,01131.000,E,1,08,0.9,545.4")
      { Callsign := bs "A", Destination := bs "B", PacketType := bs "GPGGA",
        GPSTime := bs "123456", Latitude := bs "48.11730", Longitude := bs "011.51666",
        Altitude := bs "545.400000",
        Status := bs "hi:$GPGGA,123456,4807.038,N,01131.000,E,1,08,0.9,545.4" }
      (by decide)).2.1 (by decide)⟩

/-- C12, the claim as stated fails: the line `>APRS,WIDE:hello` is returned without error
and its Callsign is empty. -/
theorem C12_counterexample :
    ∃ p, ParseAPRSPacket goFloat (bs ">APRS,WIDE:hello") = .ret p none ∧ p.Callsign = [] :=
  ⟨{ Destination := bs "APRS" }, by decide, rfl⟩

/-- C12 amended: when the function returns a packet without error, Callsign is the text
before the first `>`; it is empty exactly when the line begins with `>`. -/
theorem C12_callsign_empty_iff (lib : FloatLib) (line : Str) (p : APRSPacket)
    (h : ParseAPRSPacket lib line = .ret p none) :
    p.Callsign = before 62 line ∧ (p.Callsign = [] ↔ line.head? = some 62) := by
  obtain ⟨hw, _, _, b, hl, hr, _⟩ := Parse_success_early lib line p h
  have hp := sameRoute_trans hr (Res.All_ok_inv (locationStage_route lib line b) hl)
  have hmem : 62 ∈ before 44 line :=
    List.count_pos_iff.mp (by unfold wellFormedRoute header at hw; omega)
  have hc : p.Callsign = before 62 line := by
    rw [hp.1]
    exact before_before line hmem
  refine ⟨hc, ?_⟩
  rw [hc]
  exact before_eq_nil_iff 62 line (before_subset 44 line 62 hmem)

/-- C12 amended, at the line `N0CALL>APRS,WIDE1-1:hello`, whose Callsign is not empty. -/
theorem C12_callsign_empty_iff_witness :
    (bs "N0CALL" = before 62 (bs "N0CALL>APRS,WIDE1-1:hello")) ∧
    (bs "N0CALL" = [] ↔ (bs "N0CALL>APRS,WIDE1-1:hello").head? = some 62) :=
  C12_callsign_empty_iff goFloat (bs "N0CALL>APRS,WIDE1-1:hello")
    { Callsign := bs "N0CALL", Destination := bs "APRS" } (by decide)

/-- C13: whatever the function returns, with or without an error, the Heading, PHG, Speed
and RawData of the packet are empty. -/
theorem C13_unpopulated_fields (lib : FloatLib) (line : Str) (p : APRSPacket)
    (e : Option String) (h : ParseAPRSPacket lib line = .ret p e) :
    p.Heading = [] ∧ p.PHG = [] ∧ p.Speed = [] ∧ p.RawData = [] := by
  rcases Parse_ret_route lib line p e h with hp | hp
  · subst hp; exact ⟨rfl, rfl, rfl, rfl⟩
  · obtain ⟨_, _, h3, h4, h5, h6⟩ := hp
    exact ⟨h4, h5, h6, h3⟩

/-- C13 at the weather report of C5. -/
theorem C13_unpopulated_fields_witness :
    ∃ p, ParseAPRSPacket goFloat
        (bs "N0CALL>APRS:@092345z4903.50N/07201.75W_220/004g005t077r000p000P000h50b09900") =
        .ret p none ∧
      p.PacketType = bs "Weather Report" ∧
      p.Heading = [] ∧ p.PHG = [] ∧ p.Speed = [] ∧ p.RawData = [] :=
  ⟨{ Callsign := bs "N0CALL",
     Destination :=
       bs "APRS:@092345z4903.50N/07201.75W_220/004g005t077r000p000P000h50b09900",
     PacketType := bs "Weather Report", GPSTime := bs "0CALL>", Symbol := bs "/_",
     Latitude := bs "49.05833", Longitude := bs "72.02916",
     WindDirection := bs "220", WindSpeed := bs "004", WindGust := bs "5W_",
     WeatherTemp := bs "20/", RainHour := bs "04g", RainDay := bs "05t",
     RainMidnight := bs "77r", Humidity := bs "00p", Pressure := bs "000" },
    by decide, rfl,
    C13_unpopulated_fields goFloat
      (bs "N0CALL>APRS:@092345z4903.50N/07201.75W_220/004g005t077r000p000P000h50b09900")
      _ none (by decide)⟩

/-- C14: the claim that the status is the text after the `z` fails on the code: the slice
starts at `s+2` and ends 7 bytes before the end of the line.  On the line below (`:>` at 5,
`z` at 13) GPSTime is `123456` as claimed, but Status is `123456zHell`, not `Hello world`. -/
theorem C14_timestamped_status_misplaced :
    wellFormedRoute (bs "A>B,C:>123456zHello world") ∧
    Index (bs "A>B,C:>123456zHello world") (bs ":>") = 5 ∧
    (bs "A>B,C:>123456zHello world").get? 13 = some 122 ∧
    (bs "A>B,C:>123456zHello world").drop 14 = bs "Hello world" ∧
    ParseAPRSPacket goFloat (bs "A>B,C:>123456zHello world") =
      .ret { Callsign := bs "A", Destination := bs "B", PacketType := bs "Status Report",
             GPSTime := bs "123456", Status := bs "123456zHell" } none := by
  refine ⟨by decide, by decide, by decide, by decide, by decide⟩

/-- C15: the claim that nine fields are enough for the GPGGA extractor fails on the code: the
guard is `len(SplitData) < 9` and the altitude is `SplitData[9]`.  The line below has a
well-formed route and exactly nine fields from the marker on, and the function panics. -/
theorem C15_ninth_field_out_of_range :
    wellFormedRoute (bs "A>B:$GPGGA,123456,4807.038,N,01131.000,E,1,08,0.9") ∧
    (gpggaFields (bs "A>B:$GPGGA,123456,4807.038,N,01131.000,E,1,08,0.9")).length = 9 ∧
    ParseAPRSPacket goFloat (bs "A>B:$GPGGA,123456,4807.038,N,01131.000,E,1,08,0.9") =
      Outcome.fault := by
  refine ⟨by decide, by decide, by decide⟩

/-- C16: the claim that the longitude starts with the three-digit degree field fails on the
code: the degrees are `input[LocationPtr+19:LocationPtr+21]`, two bytes, and byte
`LocationPtr+18` is never read.  On the line below (marker at 11, longitude `12201.75W`) the
returned Longitude is `22.02916`. -/
theorem C16_longitude_degrees_two_bytes :
    locationPtr (bs "N0CALL>APRS:@092345z4903.50N/12201.75W-Test") = 11 ∧
    ((bs "N0CALL>APRS:@092345z4903.50N/12201.75W-Test").drop 29).take 9 = bs "12201.75W" ∧
    ParseAPRSPacket goFloat (bs "N0CALL>APRS:@092345z4903.50N/12201.75W-Test") =
      .ret { Callsign := bs "N0CALL",
             Destination := bs "APRS:@092345z4903.50N/12201.75W-Test",
             PacketType := bs "Location", GPSTime := bs "0CALL>", Symbol := bs "/-",
             Latitude := bs "49.05833", Longitude := bs "22.02916" } none := by
  refine ⟨by decide, by decide, by decide⟩

/-- The coordinates of a line on which the GPGGA extractor succeeds and which the Location
stage leaves alone: they are made from fields 2, 3 and 4 only. -/
theorem gpgga_coordinates (lib : FloatLib) (line : Str) (p : APRSPacket)
    (h : ParseAPRSPacket lib line = .ret p none) (hg : bs ":$GPGGA," <:+: line)
    (hnl : p.PacketType ≠ bs "Location" ∧ p.PacketType ≠ bs "Weather Report") :
    ∃ f2 f3 f4 U V,
      (gpggaFields line).get? 2 = some f2 ∧ (gpggaFields line).get? 3 = some f3 ∧
      (gpggaFields line).get? 4 = some f4 ∧
      unsignedCoordinate lib 2 f2 = some U ∧ unsignedCoordinate lib 3 f4 = some V ∧
      p.Latitude = (if f3 = bs "S" then 45 :: U else U) ∧
      p.Longitude = (if f3 = bs "W" then 45 :: V else V) := by
  obtain ⟨_, _, _, b, hl, _, _, _, _, hx⟩ := Parse_success_early lib line p h
  obtain ⟨_, _, l3⟩ := Res.All_ok_inv (locationStage_fields lib line b) hl
  have hpb : p = b := by
    rcases l3 with e | ⟨e | e, _⟩
    · exact e
    · exact absurd e hnl.1
    · exact absurd e hnl.2
  subst hpb
  obtain ⟨_, f2, f3, f4, _, U, V, _, _, h2, h3, h4, _, hU, hV, _, _, hlat, hlon, _⟩ := hx hg
  exact ⟨f2, f3, f4, U, V, h2, h3, h4, hU, hV, hlat, hlon⟩

/-- C17: on a line on which the GPGGA extractor succeeds and which is not classified as
Location afterwards, Latitude is the unsigned coordinate of field 2 with `-` in front exactly
when field 3 is `S`, and Longitude the unsigned coordinate of field 4 with `-` in front
exactly when field 3 is `W`; any other such line with the same fields 2, 3 and 4 (whatever
its field 5) gets the same Latitude and Longitude. -/
theorem C17_gpgga_signs_from_field_three (lib : FloatLib) (line : Str) (p : APRSPacket)
    (h : ParseAPRSPacket lib line = .ret p none) (hg : bs ":$GPGGA," <:+: line)
    (hnl : p.PacketType ≠ bs "Location" ∧ p.PacketType ≠ bs "Weather Report") :
    (∃ f2 f3 f4 U V,
      (gpggaFields line).get? 2 = some f2 ∧ (gpggaFields line).get? 3 = some f3 ∧
      (gpggaFields line).get? 4 = some f4 ∧
      unsignedCoordinate lib 2 f2 = some U ∧ unsignedCoordinate lib 3 f4 = some V ∧
      p.Latitude = (if f3 = bs "S" then 45 :: U else U) ∧
      p.Longitude = (if f3 = bs "W" then 45 :: V else V)) ∧
    (∀ line2 p2, ParseAPRSPacket lib line2 = .ret p2 none → bs ":$GPGGA," <:+: line2 →
      p2.PacketType ≠ bs "Location" ∧ p2.PacketType ≠ bs "Weather Report" →
      (gpggaFields line2).get? 2 = (gpggaFields line).get? 2 →
      (gpggaFields line2).get? 3 = (gpggaFields line).get? 3 →
      (gpggaFields line2).get? 4 = (gpggaFields line).get? 4 →
      p2.Latitude = p.Latitude ∧ p2.Longitude = p.Longitude) := by
  have h1 := gpgga_coordinates lib line p h hg hnl
  refine ⟨h1, ?_⟩
  intro line2 p2 h' hg' hnl' e2 e3 e4
  obtain ⟨f2, f3, f4, U, V, a2, a3, a4, aU, aV, alat, alon⟩ := h1
  obtain ⟨g2, g3, g4, U2, V2, b2, b3, b4, bU, bV, blat, blon⟩ :=
    gpgga_coordinates lib line2 p2 h' hg' hnl'
  rw [e2, a2] at b2
  rw [e3, a3] at b3
  rw [e4, a4] at b4
  have t2 : f2 = g2 := Option.some.inj b2
  have t3 : f3 = g3 := Option.some.inj b3
  have t4 : f4 = g4 := Option.some.inj b4
  subst t2 t3 t4
  rw [aU] at bU
  rw [aV] at bV
  have tU : U = U2 := Option.some.inj bU
  have tV : V = V2 := Option.some.inj bV
  subst tU tV
  exact ⟨by rw [blat, alat], by rw [blon, alon]⟩

/-- C17 at two lines that differ in field 3 only: with `S` the latitude is negated, with `W`
the longitude, and field 5 (`W` in the first line, `E` in the second) changes nothing. -/
theorem C17_gpgga_signs_from_field_three_witness :
    (∃ f2 f3 f4 U V,
      (gpggaFields (bs "A>B:$GPGGA,123456,4807.038,S,01131.000,W,1,08,0.9,545.4")).get? 2 =
        some f2 ∧
      (gpggaFields (bs "A>B:$GPGGA,123456,4807.038,S,01131.000,W,1,08,0.9,545.4")).get? 3 =
        some f3 ∧
      (gpggaFields (bs "A>B:$GPGGA,123456,4807.038,S,01131.000,W,1,08,0.9,545.4")).get? 4 =
        some f4 ∧
      unsignedCoordinate goFloat 2 f2 = some U ∧ unsignedCoordinate goFloat 3 f4 = some V ∧
      bs "-48.11730" = (if f3 = bs "S" then 45 :: U else U) ∧
      bs "011.51666" = (if f3 = bs "W" then 45 :: V else V)) ∧
    ParseAPRSPacket goFloat (bs "A>B:$GPGGA,123456,4807.038,W,01131.000,E,1,08,0.9,545.4") =
      .ret { Callsign := bs "A", Destination := bs "B:$GPGGA", PacketType := bs "GPGGA",
             GPSTime := bs "123456", Latitude := bs "48.11730", Longitude := bs "-011.51666",
             Altitude := bs "545.400000" } none :=
  ⟨(C17_gpgga_signs_from_field_three goFloat
      (bs "A>B:$GPGGA,123456,4807.038,S,01131.000,W,1,08,0.9,545.4")
      { Callsign := bs "A", Destination := bs "B:$GPGGA", PacketType := bs "GPGGA",
        GPSTime := bs "123456", Latitude := bs "-48.11730", Longitude := bs "011.51666",
        Altitude := bs "545.400000" }
      (by decide) (by decide) (by decide)).1,
    by decide⟩

/-- C18: on a line with a well-formed route that contains a Mic-E marker and does not contain
`:$GPGGA,`, the function returns the Mic-E error with PacketType `New Mic-E` when
colon-backtick occurs in the line and `Old Mic-E` otherwise. -/
theorem C18_micE_packet_type (lib : FloatLib) (line : Str) (hw : wellFormedRoute line)
    (hm : bs ":`" <:+: line ∨ bs ":'" <:+: line) (hg : ¬ bs ":$GPGGA," <:+: line) :
    ∃ p, ParseAPRSPacket lib line = .ret p (some errMicE) ∧
      p.PacketType = if bs ":`" <:+: line then bs "New Mic-E" else bs "Old Mic-E" := by
  obtain ⟨q, hq⟩ := statusStage_ok line (routePacket line)
  refine ⟨{ q with
    PacketType := if Index line (bs ":`") ≠ -1 then bs "New Mic-E" else bs "Old Mic-E" },
    ?_, ?_⟩
  · rw [Parse_wellFormed lib line hw]
    unfold stages
    rw [hq, Res.bind_ok, gpggaStage_skip lib line q hg, Res.bind_ok, micEStage_hit line q hm,
      Res.bind_ret]
    rfl
  · simp only [Index_ne_neg_one_iff]

/-- C18 at a line that holds both markers, the apostrophe one first, and at one that holds
the apostrophe marker only. -/
theorem C18_micE_packet_type_witness :
    (∃ p, ParseAPRSPacket goFloat (bs "N0CALL>APRS:'abc:`") = .ret p (some errMicE) ∧
      p.PacketType =
        if bs ":`" <:+: bs "N0CALL>APRS:'abc:`" then bs "New Mic-E" else bs "Old Mic-E") ∧
    (∃ p, ParseAPRSPacket goFloat (bs "N0CALL>APRS:'abc") = .ret p (some errMicE) ∧
      p.PacketType =
        if bs ":`" <:+: bs "N0CALL>APRS:'abc" then bs "New Mic-E" else bs "Old Mic-E") ∧
    bs ":`" <:+: bs "N0CALL>APRS:'abc:`" ∧ ¬ bs ":`" <:+: bs "N0CALL>APRS:'abc" :=
  ⟨C18_micE_packet_type goFloat (bs "N0CALL>APRS:'abc:`") (by decide) (by decide) (by decide),
    C18_micE_packet_type goFloat (bs "N0CALL>APRS:'abc") (by decide) (by decide) (by decide),
    by decide, by decide⟩

/-- C19: on a line of at most 8 bytes with a well-formed route (hence of at least 1 byte) and
without Mic-E marker the function panics: the probe `LocationSlice(input, LocationPtr, 8)`
reads byte `LocationPtr+8`, which is beyond the line. -/
theorem C19_short_line_faults (lib : FloatLib) (line : Str) (h8 : line.length ≤ 8)
    (hw : wellFormedRoute line) (hm1 : ¬ bs ":`" <:+: line) (hm2 : ¬ bs ":'" <:+: line) :
    1 ≤ line.length ∧ ParseAPRSPacket lib line = Outcome.fault := by
  have hgt := gt_mem_of_wellFormed line hw
  have h1 : 1 ≤ line.length := List.length_pos_of_mem hgt
  refine ⟨h1, ?_⟩
  obtain ⟨q, hq⟩ := statusStage_ok line (routePacket line)
  have hL := locationPtr_nonneg line
  have hfault : locationStage lib line q = Res.fault := by
    unfold locationStage LocationSlice
    simp only
    rw [slice_none line _ _ (by unfold len; omega)]
    rfl
  rw [Parse_wellFormed lib line hw]
  unfold stages
  rw [hq, Res.bind_ok, gpggaStage_skip lib line q (gpgga_not_in_short line h8 hw), Res.bind_ok,
    micEStage_skip line q hm1 hm2, Res.bind_ok, hfault]
  rfl

/-- C19 at the 3-byte line `A>B` and at the 8-byte status line `A>B,C:>x`. -/
theorem C19_short_line_faults_witness :
    (bs "A>B,C:>x").length = 8 ∧
    ParseAPRSPacket goFloat (bs "A>B") = Outcome.fault ∧
    ParseAPRSPacket goFloat (bs "A>B,C:>x") = Outcome.fault :=
  ⟨by decide,
    (C19_short_line_faults goFloat (bs "A>B") (by decide) (by decide) (by decide)
      (by decide)).2,
    (C19_short_line_faults goFloat (bs "A>B,C:>x") (by decide) (by decide) (by decide)
      (by decide)).2⟩

/-- C20: on a line without `:!` that the function returns without error as `Location` or
`Weather Report`, the line has at least 7 bytes and GPSTime is its bytes 1 to 6, wherever the
`:@` or `:=` marker stands. -/
theorem C20_gpstime_from_line_start (lib : FloatLib) (line : Str) (p : APRSPacket)
    (h : ParseAPRSPacket lib line = .ret p none) (hT : ¬ bs ":!" <:+: line)
    (hloc : p.PacketType = bs "Location" ∨ p.PacketType = bs "Weather Report") :
    7 ≤ line.length ∧ p.GPSTime = (line.drop 1).take 6 := by
  obtain ⟨_, _, _, b, hl, _, _, _, ht, _⟩ := Parse_success_early lib line p h
  obtain ⟨_, _, l3⟩ := Res.All_ok_inv (locationStage_fields lib line b) hl
  have hne := earlyType_ne_location line
  have hidx : Index line (bs ":!") = -1 := (Index_eq_neg_one_iff _ _).mpr hT
  rcases l3 with e | ⟨_, hs⟩
  · subst e
    rw [ht] at hloc
    rcases hloc with e | e
    · exact absurd e hne.1
    · exact absurd e hne.2
  · have hs2 := hs hidx
    rw [hidx] at hs2
    obtain ⟨_, _, hlen, hr⟩ := slice_eq_some line _ _ _ hs2
    unfold len at hlen
    exact ⟨by omega, hr⟩

/-- C20 at a line whose marker `:@` stands at 11 and whose timestamp is `092345`: GPSTime is
`0CALL>`. -/
theorem C20_gpstime_from_line_start_witness :
    Index (bs "N0CALL>APRS:@092345z4903.50N/12201.75W-Test") (bs ":@") = 11 ∧
    7 ≤ (bs "N0CALL>APRS:@092345z4903.50N/12201.75W-Test").length ∧
    bs "0CALL>" = ((bs "N0CALL>APRS:@092345z4903.50N/12201.75W-Test").drop 1).take 6 :=
  ⟨by decide,
    C20_gpstime_from_line_start goFloat (bs "N0CALL>APRS:@092345z4903.50N/12201.75W-Test")
      { Callsign := bs "N0CALL",
        Destination := bs "APRS:@092345z4903.50N/12201.75W-Test",
        PacketType := bs "Location", GPSTime := bs "0CALL>", Symbol := bs "/-",
        Latitude := bs "49.05833", Longitude := bs "22.02916" }
      (by decide) (by decide) (by decide)⟩

end Aprs
